import Mathlib

/-!
# KQOAuth manager: a shallow embedding of `src/kqoauthmanager.cpp`

The development embeds `KQOAuthManagerPrivate` and `KQOAuthManager` as pure
state-passing functions over a record of the private fields, with the signals
emitted, the network posts made and the URLs opened recorded as append-only
logs inside that record.

Conventions.
* `QString` and `QByteArray` are lists of characters; a byte is the character
  of the same code, and the 0 byte is the character of code 0.
* A pointer to a request is a `RequestPtr`. A function returns `none` when it
  dereferences the null pointer, reads or writes a request object that has
  been deleted, or deletes an object twice.
* Of object lifetime the model keeps what the manager does itself: the
  statement `delete d->r` of `executeRequest`, which frees the cached request and,
  when the cached request is the manager's own `opaqueRequest`, leaves
  `d->opaqueRequest` dangling. A request object of the caller is held by value
  and every call of `executeRequest` by the caller passes a new object; a call
  that passes again a pointer the manager has taken reads a deleted object, has
  no defined result and is not among the calls of the model.
* The class `KQOAuthRequest` is declared outside the embedded file; its
  methods are taken as a parameter (`Externals`).
-/

namespace KQOAuth

/-! ## Qt value types -/

/-- A `QString`, as its sequence of characters. -/
abbrev QString := List Char

/-- A `QByteArray`, as its sequence of characters. -/
abbrev QByteArray := List Char

/-- The function `QString::split(sep)` with the default `KeepEmptyParts`
behaviour: the pieces between the occurrences of `sep`; the empty string has
the single piece `""`. -/
def qsplit (sep : Char) : QString → List QString
  | [] => [[]]
  | c :: cs =>
    if c = sep then [] :: qsplit sep cs
    else
      match qsplit sep cs with
      | [] => [[c]]
      | piece :: pieces => (c :: piece) :: pieces

/-- The function `QString::split(sep, QString::SkipEmptyParts)`. -/
def qsplitSkipEmptyParts (sep : Char) (s : QString) : List QString :=
  (qsplit sep s).filter (fun piece => !piece.isEmpty)

/-- The function `QList<QString>::value(i)`: the item at index `i`, or a
default-constructed (empty) string when `i` is out of bounds. -/
def qlistValue (l : List QString) (i : Nat) : QString :=
  l.getD i []

/-- Decidable strict order on `QString` keys (lexicographic on characters). -/
def qstringLt : QString → QString → Bool
  | _, [] => false
  | [], _ :: _ => true
  | a :: as, b :: bs =>
    if a.toNat < b.toNat then true
    else if b.toNat < a.toNat then false
    else qstringLt as bs

/-- A `QMultiMap<QString, QString>`: its items in iteration order, that is
ascending by key, and for equal keys from the most recently inserted to the
least recently inserted. -/
abbrev QMultiMap := List (QString × QString)

/-- The function `QMultiMap::insert(key, value)`: a new item is created even
when the key is already present, and it comes before the older items of the same
key. -/
def QMultiMap.insert : QMultiMap → QString → QString → QMultiMap
  | [], key, value => [(key, value)]
  | (k, v) :: rest, key, value =>
    if qstringLt k key then (k, v) :: QMultiMap.insert rest key value
    else (key, value) :: (k, v) :: rest

/-- The function `QMultiMap::value(key)`: the value of the most recently
inserted item with this key, or a default-constructed (empty) string when there
is none. -/
def QMultiMap.value : QMultiMap → QString → QString
  | [], _ => []
  | (k, v) :: rest, key => if k = key then v else QMultiMap.value rest key

/-- An URL (`QUrl`): whether `isValid()` holds, everything but the query, and
the query items. -/
structure QUrl where
  isValid : Bool
  location : QString
  queryItems : List (QString × QString)
deriving DecidableEq, Repr

/-- The function `QUrl::setQueryItems`: the query is replaced by the given
items. -/
def QUrl.setQueryItems (url : QUrl) (items : List (QString × QString)) : QUrl :=
  { url with queryItems := items }

/-! ## Enumerations -/

/-- The enumeration `KQOAuthManager::KQOAuthError`. -/
inductive KQOAuthError where
  | NoError
  | NetworkError
  | RequestEndpointError
  | RequestValidationError
  | RequestUnauthorized
  | RequestError
deriving DecidableEq, Repr

/-- The enumeration `KQOAuthRequest::RequestType`. -/
inductive RequestType where
  | TemporaryCredentials
  | AccessToken
  | AuthorizedRequest
deriving DecidableEq, Repr

/-- The enumeration `KQOAuthRequest::RequestSignatureMethod`. -/
inductive RequestSignatureMethod where
  | PLAINTEXT
  | HMAC_SHA1
  | RSA_SHA1
deriving DecidableEq, Repr

/-- The enumeration `QNetworkReply::NetworkError`: the three values the reply
handler names, and every other value by its numeric code. -/
inductive QNetworkError where
  | NoError
  | ContentAccessDenied
  | AuthenticationRequiredError
  | OtherError (code : Nat)
deriving DecidableEq, Repr

/-- A finished `QNetworkReply`: the transport outcome `error()` and the bytes
that `readAll()` returns. -/
structure QNetworkReply where
  error : QNetworkError
  body : QByteArray
deriving DecidableEq, Repr

/-! ## The response decoder -/

/-- One pass of the loop body of `createRequestResponse`: the pair is split at
every `=`, and the first two pieces are the key and the value. -/
def parameterOfPair (parameterPair : QString) : QString × QString :=
  let parameter := qsplit '=' parameterPair
  (qlistValue parameter 0, qlistValue parameter 1)

/-- The constructor `QString(const QByteArray &)` of Qt 4: the bytes are copied
up to the first 0 byte, which ends the string. -/
def qstringOfByteArray : QByteArray → QString
  | [] => []
  | c :: cs => if c = '\x00' then [] else c :: qstringOfByteArray cs

/-- The function `KQOAuthManagerPrivate::createRequestResponse`, on the bytes
that `reply->readAll()` returns. -/
def createRequestResponse (readAll : QByteArray) : QMultiMap :=
  let replyString := qstringOfByteArray readAll
  let parameterPairs := qsplitSkipEmptyParts '&' replyString
  parameterPairs.foldl
    (fun result parameterPair =>
      let p := parameterOfPair parameterPair
      QMultiMap.insert result p.1 p.2)
    []

/-! ## The request class and the platform -/

/-- The type `KQOAuthParameters`, a multimap of body parameters. -/
abbrev KQOAuthParameters := QMultiMap

/-- What the manager uses of code that lies outside `kqoauthmanager.cpp`, over
an arbitrary representation `Req` of a `KQOAuthRequest` object: the members and
methods of `KQOAuthRequest`, the construction of a `QUrl` from a string, and the
port on which the callback server ends up listening. -/
structure Externals (Req : Type) where
  /-- The expression `new KQOAuthRequest`. -/
  newRequest : Req
  /-- The member `requestType`. -/
  requestType : Req → RequestType
  /-- The method `requestEndpoint()`. -/
  requestEndpoint : Req → QUrl
  /-- The method `isValid()`. -/
  isValid : Req → Bool
  /-- The method `requestParameters()`, which may update the object. -/
  requestParameters : Req → List QByteArray × Req
  /-- The method `requestBody()`. -/
  requestBody : Req → QByteArray
  /-- The member `d_ptr->oauthConsumerKey`. -/
  oauthConsumerKey : Req → QString
  /-- The member `d_ptr->oauthConsumerSecretKey`. -/
  oauthConsumerSecretKey : Req → QString
  /-- The member `d_ptr->oauthCallbackUrl`. -/
  oauthCallbackUrl : Req → QUrl
  /-- The method `setCallbackUrl(url)`. -/
  setCallbackUrl : Req → QUrl → Req
  /-- The method `setConsumerKey(key)`. -/
  setConsumerKey : Req → QString → Req
  /-- The method `setConsumerSecretKey(key)`. -/
  setConsumerSecretKey : Req → QString → Req
  /-- The method `setSignatureMethod(method)`. -/
  setSignatureMethod : Req → RequestSignatureMethod → Req
  /-- The method `setToken(token)`. -/
  setToken : Req → QString → Req
  /-- The method `setTokenSecret(secret)`. -/
  setTokenSecret : Req → QString → Req
  /-- The method `setRequestBody(parameters)`. -/
  setRequestBody : Req → KQOAuthParameters → Req
  /-- The method `initRequest(type, endpoint)`. -/
  initRequest : Req → RequestType → QUrl → Req
  /-- The method `clearRequest()`. -/
  clearRequest : Req → Req
  /-- The constructor `QUrl(string)`. -/
  urlOfString : QString → QUrl
  /-- The port the system assigns to the callback server when it starts to
  listen. -/
  assignedPort : Nat

/-- A pointer to a `KQOAuthRequest`: null; a pointer to a live object that the
caller has allocated and that the manager does not hold otherwise (the object is
held by value); or the pointer `d->opaqueRequest` to the manager's own object,
which is live or deleted according to the manager's state. -/
inductive RequestPtr (Req : Type) where
  | null
  | object (request : Req)
  | opaqueRequest
deriving DecidableEq, Repr

/-- The test `request == 0`. -/
def RequestPtr.isNull {Req : Type} : RequestPtr Req → Bool
  | RequestPtr.null => true
  | RequestPtr.object _ => false
  | RequestPtr.opaqueRequest => false

/-- The callback server `KQOAuthAuthReplyServer`, as far as the manager
observes it: whether it listens, and the value of `serverPort()`. -/
structure KQOAuthAuthReplyServer where
  isListening : Bool
  serverPort : Nat
deriving DecidableEq, Repr

/-- Modelled from the spec: the body of `KQOAuthAuthReplyServer::listen()` is
not part of the embedded file. The listener binds to the port the system
assigns and reports success; a listener that already listens reports failure and
keeps its port. -/
def KQOAuthAuthReplyServer.listen (assignedPort : Nat) (server : KQOAuthAuthReplyServer) :
    Bool × KQOAuthAuthReplyServer :=
  if server.isListening then (false, server)
  else (true, { isListening := true, serverPort := assignedPort })

/-- A signal emitted by the manager. -/
inductive Signal where
  | requestReady (requestResponse : QMultiMap)
  | receivedToken (oauthToken : QString) (oauthTokenSecret : QString)
deriving DecidableEq, Repr

/-- A call of `QNetworkAccessManager::post`: the request's URL, its raw
`Authorization` header, its content type header, and the body. -/
structure NetworkPost where
  url : QUrl
  authorization : QByteArray
  contentType : QString
  body : QByteArray
deriving DecidableEq, Repr

/-! ## The manager state -/

/-- The fields of `KQOAuthManagerPrivate`, with the flag `opaqueRequestDeleted`
that tells whether the object behind `d->opaqueRequest` has been deleted (its
value is then meaningless), followed by what the manager has done to the
outside: the number of connections from the network manager's `finished`
signal to `onRequestReplyReceived`, the number of connections from the callback
server's `verificationReceived` signal to `onVerificationReceived`, the posts
made, the signals emitted and the URLs opened in the browser, oldest first. -/
structure Manager (Req : Type) where
  error : KQOAuthError
  r : RequestPtr Req
  opaqueRequest : Req
  opaqueRequestDeleted : Bool
  callbackServer : KQOAuthAuthReplyServer
  currentRequestType : RequestType
  requestToken : QString
  requestTokenSecret : QString
  requestVerifier : QString
  hasTemporaryToken : Bool
  isVerified : Bool
  isAuthorized : Bool
  autoAuth : Bool
  finishedConnections : Nat
  verificationConnections : Nat
  posted : List NetworkPost
  emitted : List Signal
  opened : List QUrl
deriving DecidableEq, Repr

variable {Req : Type}

/-- The constructors `KQOAuthManagerPrivate::KQOAuthManagerPrivate` and
`KQOAuthManager::KQOAuthManager`. The members `currentRequestType` and
`hasTemporaryToken` are not initialised by the constructor: their initial values
are arguments. -/
def newManager (x : Externals Req) (currentRequestType : RequestType)
    (hasTemporaryToken : Bool) : Manager Req :=
  { error := KQOAuthError.NoError
    r := RequestPtr.null
    opaqueRequest := x.newRequest
    opaqueRequestDeleted := false
    callbackServer := { isListening := false, serverPort := 0 }
    currentRequestType := currentRequestType
    requestToken := []
    requestTokenSecret := []
    requestVerifier := []
    hasTemporaryToken := hasTemporaryToken
    isVerified := false
    isAuthorized := false
    autoAuth := false
    finishedConnections := 0
    verificationConnections := 0
    posted := []
    emitted := []
    opened := [] }

/-- The live object a pointer designates: none for the null pointer, and none
for `d->opaqueRequest` once the opaque request has been deleted. -/
def Manager.deref (m : Manager Req) : RequestPtr Req → Option Req
  | RequestPtr.null => none
  | RequestPtr.object request => some request
  | RequestPtr.opaqueRequest => if m.opaqueRequestDeleted then none else some m.opaqueRequest

/-- A call `d->opaqueRequest->f(...)` of a method that updates the opaque
request; it fails when the opaque request has been deleted. -/
def Manager.onOpaqueRequest (m : Manager Req) (f : Req → Req) : Option (Manager Req) :=
  if m.opaqueRequestDeleted then none else some { m with opaqueRequest := f m.opaqueRequest }

/-- The statement `if( d->r != 0 ) delete d->r;` of `executeRequest`. Deleting a
caller's object leaves nothing behind in the state; deleting the manager's own
opaque request marks it deleted, and deleting it a second time fails. -/
def Manager.deleteCached (m : Manager Req) : Option (Manager Req) :=
  match m.r with
  | RequestPtr.null => some m
  | RequestPtr.object _ => some m
  | RequestPtr.opaqueRequest =>
    if m.opaqueRequestDeleted then none else some { m with opaqueRequestDeleted := true }

/-- The state after the object behind `request` has been updated to `value`, in
states where `d->r` equals `request`. -/
def Manager.store (m : Manager Req) (request : RequestPtr Req) (value : Req) : Manager Req :=
  match request with
  | RequestPtr.null => m
  | RequestPtr.object _ => { m with r := RequestPtr.object value }
  | RequestPtr.opaqueRequest => { m with opaqueRequest := value }

/-- The statement `emit signal`. -/
def Manager.emit (m : Manager Req) (signal : Signal) : Manager Req :=
  { m with emitted := m.emitted ++ [signal] }

/-! ## `KQOAuthManagerPrivate` -/

/-- The string literal `"oauth_token"`. -/
def oauthTokenKey : QString := "oauth_token".toList

/-- The string literal `"oauth_token_secret"`. -/
def oauthTokenSecretKey : QString := "oauth_token_secret".toList

/-- The function `KQOAuthManagerPrivate::setSuccessfulRequestToken`. -/
def setSuccessfulRequestToken (m : Manager Req) (request : QMultiMap) : Bool × Manager Req :=
  if m.currentRequestType = RequestType.TemporaryCredentials then
    let m := { m with hasTemporaryToken :=
      (!(request.value oauthTokenKey).isEmpty
        && !(request.value oauthTokenSecretKey).isEmpty) }
    let m :=
      if m.hasTemporaryToken then
        { m with requestToken := request.value oauthTokenKey
                 requestTokenSecret := request.value oauthTokenSecretKey }
      else m
    (m.hasTemporaryToken, m)
  else
    (false, m)

/-- The function `KQOAuthManagerPrivate::setSuccessfulVerified`. -/
def setSuccessfulVerified (m : Manager Req) (_request : QMultiMap) : Bool × Manager Req :=
  (false, m)

/-- The function `KQOAuthManagerPrivate::setSuccessfulAuthorized`. -/
def setSuccessfulAuthorized (m : Manager Req) (request : QMultiMap) : Bool × Manager Req :=
  if m.currentRequestType = RequestType.AccessToken then
    let m := { m with isAuthorized :=
      (!(request.value oauthTokenKey).isEmpty
        && !(request.value oauthTokenSecretKey).isEmpty) }
    let m :=
      if m.isAuthorized then
        { m with requestToken := request.value oauthTokenKey
                 requestTokenSecret := request.value oauthTokenSecretKey }
      else m
    (m.isAuthorized, m)
  else
    (false, m)

/-- The function `KQOAuthManagerPrivate::emitTokens`. -/
def emitTokens (m : Manager Req) (requestResponse : QMultiMap) : Manager Req :=
  let oauthToken := requestResponse.value oauthTokenKey
  let oauthTokenSecret := requestResponse.value oauthTokenSecretKey
  let m :=
    if oauthToken.isEmpty || oauthTokenSecret.isEmpty then
      { m with error := KQOAuthError.RequestUnauthorized }
    else m
  m.emit (Signal.receivedToken oauthToken oauthTokenSecret)

/-- The function `KQOAuthManagerPrivate::setupCallbackServer`. -/
def setupCallbackServer (x : Externals Req) (m : Manager Req) : Bool × Manager Req :=
  let res := m.callbackServer.listen x.assignedPort
  (res.1, { m with callbackServer := res.2 })

/-! ## `KQOAuthManager` -/

/-- The loop of `executeRequest` that builds the `Authorization` header: the
accumulated header and the flag `first`, after one more parameter. -/
def authHeaderStep (acc : QByteArray × Bool) (header : QByteArray) : QByteArray × Bool :=
  let acc :=
    if !acc.2 then (acc.1 ++ ", ".toList, acc.2)
    else (acc.1 ++ "OAuth ".toList, false)
  (acc.1 ++ header, acc.2)

/-- The value of `authHeader` after the loop over `requestHeaders`. -/
def authHeaderOf (requestHeaders : List QByteArray) : QByteArray :=
  (requestHeaders.foldl authHeaderStep ([], true)).1

/-- The part of `executeRequest` after the null check, on the object `req` that
`request` designates. -/
def executeChecked (x : Externals Req) (m : Manager Req) (request : RequestPtr Req)
    (req : Req) : Manager Req :=
  if !(x.requestEndpoint req).isValid then
    { m with error := KQOAuthError.RequestEndpointError }
  else if !x.isValid req then
    { m with error := KQOAuthError.RequestValidationError }
  else
    let m := { m with currentRequestType := x.requestType req }
    let url := x.requestEndpoint req
    let st : Manager Req × Req :=
      if m.autoAuth && m.currentRequestType = RequestType.TemporaryCredentials then
        let m := (setupCallbackServer x m).2
        let serverString := "http://localhost:".toList ++ (Nat.repr m.callbackServer.serverPort).toList
        (m, x.setCallbackUrl req (x.urlOfString serverString))
      else (m, req)
    let m := st.1
    let params := x.requestParameters st.2
    let req := params.2
    let authHeader := authHeaderOf params.1
    let m := m.store request req
    let m := { m with finishedConnections := m.finishedConnections + 1 }
    { m with posted := m.posted ++
        [{ url := url
           authorization := authHeader
           contentType := "application/x-www-form-urlencoded".toList
           body := x.requestBody req }] }

/-- The function `KQOAuthManager::executeRequest`. The cached request is
deleted first; the result is `none` when that deletes the opaque request a
second time, or when `request` then points to a deleted object, which is the case
when `request` is `d->opaqueRequest` and the opaque request was the cached
request or had been deleted before. -/
def executeRequest (x : Externals Req) (m : Manager Req) (request : RequestPtr Req) :
    Option (Manager Req) :=
  match m.deleteCached with
  | none => none
  | some m =>
    let m := { m with r := request }
    if request.isNull then
      some { m with error := KQOAuthError.RequestError }
    else
      match m.deref request with
      | none => none
      | some req => some (executeChecked x m request req)

/-- The `switch` of `onRequestReplyReceived` over the transport outcome. -/
def errorOfNetworkError : QNetworkError → KQOAuthError
  | QNetworkError.NoError => KQOAuthError.NoError
  | QNetworkError.ContentAccessDenied => KQOAuthError.RequestUnauthorized
  | QNetworkError.AuthenticationRequiredError => KQOAuthError.RequestUnauthorized
  | QNetworkError.OtherError _ => KQOAuthError.NetworkError

/-- The branch of `onRequestReplyReceived` taken after
`setSuccessfulRequestToken` has succeeded: the opaque request is filled from
the cached request `d->r`, which is read anew by every statement; every
statement needs `d->r` non-null and both objects live. -/
def fillOpaqueRequestForToken (x : Externals Req) (m : Manager Req) : Option (Manager Req) := do
  let r ← m.deref m.r
  let m ← m.onOpaqueRequest (fun o => x.setConsumerKey o (x.oauthConsumerKey r))
  let r ← m.deref m.r
  let m ← m.onOpaqueRequest (fun o => x.setConsumerSecretKey o (x.oauthConsumerSecretKey r))
  let m ← m.onOpaqueRequest (fun o => x.setSignatureMethod o RequestSignatureMethod.HMAC_SHA1)
  let r ← m.deref m.r
  m.onOpaqueRequest (fun o => x.setCallbackUrl o (x.oauthCallbackUrl r))

/-- The branch of `onRequestReplyReceived` taken after
`setSuccessfulAuthorized` has succeeded. -/
def fillOpaqueRequestForAccess (x : Externals Req) (m : Manager Req) : Option (Manager Req) := do
  let r ← m.deref m.r
  let m ← m.onOpaqueRequest (fun o => x.setConsumerKey o (x.oauthConsumerKey r))
  let r ← m.deref m.r
  let m ← m.onOpaqueRequest (fun o => x.setConsumerSecretKey o (x.oauthConsumerSecretKey r))
  m.onOpaqueRequest (fun o => x.setSignatureMethod o RequestSignatureMethod.HMAC_SHA1)

/-- The statement `if( !d->isAuthorized || !d->isVerified ) ...` of
`onRequestReplyReceived`. -/
def interpretResponse (x : Externals Req) (m : Manager Req) (requestResponse : QMultiMap) :
    Option (Manager Req) :=
  if !m.isAuthorized || !m.isVerified then
    let res := setSuccessfulRequestToken m requestResponse
    if res.1 then fillOpaqueRequestForToken x res.2
    else
      let res := setSuccessfulAuthorized res.2 requestResponse
      if res.1 then fillOpaqueRequestForAccess x res.2
      else some res.2
  else some m

/-- The slot `KQOAuthManager::onRequestReplyReceived`. The result is `none`
when the slot calls `clearRequest()` on a deleted opaque request or dereferences
a null `d->r`. -/
def onRequestReplyReceived (x : Externals Req) (m : Manager Req) (reply : QNetworkReply) :
    Option (Manager Req) :=
  let m := { m with error := errorOfNetworkError reply.error }
  if m.error ≠ KQOAuthError.NoError then
    let m := m.emit (Signal.requestReady [])
    some (emitTokens m [])
  else
    let requestResponse := createRequestResponse reply.body
    match m.onOpaqueRequest x.clearRequest with
    | none => none
    | some m =>
      match interpretResponse x m requestResponse with
      | none => none
      | some m =>
        let m := m.emit (Signal.requestReady requestResponse)
        if m.currentRequestType = RequestType.TemporaryCredentials
            ∨ m.currentRequestType = RequestType.AccessToken then
          some (emitTokens m requestResponse)
        else some m

/-- The function `KQOAuthManager::setHandleUserAuthentication`. -/
def setHandleUserAuthentication (m : Manager Req) (set : Bool) : Manager Req :=
  { m with autoAuth := set }

/-- The function `KQOAuthManager::hasTemporaryToken`. -/
def hasTemporaryToken (m : Manager Req) : Bool := m.hasTemporaryToken

/-- The function `KQOAuthManager::isVerified`. -/
def isVerified (m : Manager Req) : Bool := m.isVerified

/-- The function `KQOAuthManager::isAuthorized`. -/
def isAuthorized (m : Manager Req) : Bool := m.isAuthorized

/-- The function `KQOAuthManager::lastError`. -/
def lastError (m : Manager Req) : KQOAuthError := m.error

/-- The function `KQOAuthManager::getUserAuthorization`. -/
def getUserAuthorization (m : Manager Req) (authorizationEndpoint : QUrl) : Manager Req :=
  if !m.hasTemporaryToken then
    { m with error := KQOAuthError.RequestUnauthorized }
  else if !authorizationEndpoint.isValid then
    { m with error := KQOAuthError.RequestEndpointError }
  else
    let m := { m with verificationConnections := m.verificationConnections + 1 }
    let tokenParam := (oauthTokenKey, m.requestToken)
    let queryParams := [tokenParam]
    let authorizationEndpoint := authorizationEndpoint.setQueryItems queryParams
    { m with opened := m.opened ++ [authorizationEndpoint] }

/-- The slot `KQOAuthManager::onVerificationReceived`, which only logs. -/
def onVerificationReceived (m : Manager Req) (_response : QMultiMap) : Manager Req := m

/-- The four calls on the opaque request by which `sendAuthorizedRequest`
prepares it. -/
def prepareOpaqueRequest (x : Externals Req) (m : Manager Req) (requestEndpoint : QUrl)
    (requestParameters : KQOAuthParameters) : Option (Manager Req) := do
  let m ← m.onOpaqueRequest
    (fun o => x.initRequest o RequestType.AuthorizedRequest requestEndpoint)
  let m ← m.onOpaqueRequest (fun o => x.setRequestBody o requestParameters)
  let m ← m.onOpaqueRequest (fun o => x.setToken o m.requestToken)
  m.onOpaqueRequest (fun o => x.setTokenSecret o m.requestTokenSecret)

/-- The function `KQOAuthManager::sendAuthorizedRequest`. The result is `none`
when the opaque request has been deleted, or when `executeRequest` deletes it
because it is the cached request. -/
def sendAuthorizedRequest (x : Externals Req) (m : Manager Req) (requestEndpoint : QUrl)
    (requestParameters : KQOAuthParameters) : Option (Manager Req) :=
  if !m.isAuthorized then
    some { m with error := KQOAuthError.RequestUnauthorized }
  else if !requestEndpoint.isValid then
    some { m with error := KQOAuthError.RequestEndpointError }
  else
    match prepareOpaqueRequest x m requestEndpoint requestParameters with
    | none => none
    | some m => executeRequest x m RequestPtr.opaqueRequest

/-! ## Signal delivery and reachable states -/

/-- The slot invocations caused by one emission of the network manager's
`finished(reply)` signal when `n` connections to `onRequestReplyReceived`
exist: the slot runs once per connection, and since every run of the slot calls
`readAll()`, the runs after the first find the reply's data already read. -/
def deliverFinished (x : Externals Req) : Nat → Manager Req → QNetworkReply → Option (Manager Req)
  | 0, m, _ => some m
  | n + 1, m, reply =>
    match onRequestReplyReceived x m reply with
    | none => none
    | some m => deliverFinished x n m { reply with body := [] }

/-- One emission of the network manager's `finished(reply)` signal. -/
def finished (x : Externals Req) (m : Manager Req) (reply : QNetworkReply) :
    Option (Manager Req) :=
  deliverFinished x m.finishedConnections m reply

/-- What can happen to a manager: a call of its public interface, or a run of
one of its slots. -/
inductive Call (Req : Type) where
  | executeRequest (request : Option Req)
  | onRequestReplyReceived (reply : QNetworkReply)
  | setHandleUserAuthentication (set : Bool)
  | getUserAuthorization (authorizationEndpoint : QUrl)
  | onVerificationReceived (response : QMultiMap)
  | sendAuthorizedRequest (requestEndpoint : QUrl) (requestParameters : KQOAuthParameters)

/-- The pointer a caller passes for an optional request: null, or a pointer to
a request object of its own. -/
def RequestPtr.ofOption : Option Req → RequestPtr Req
  | none => RequestPtr.null
  | some request => RequestPtr.object request

/-- The state after one call. The reply slot runs only when it is connected to
the network manager, that is after an accepted `executeRequest`; the result is
`none` when the slot is not connected or when the call fails on a null or
deleted request object. -/
def perform (x : Externals Req) (m : Manager Req) : Call Req → Option (Manager Req)
  | Call.executeRequest request => executeRequest x m (RequestPtr.ofOption request)
  | Call.onRequestReplyReceived reply =>
    if 0 < m.finishedConnections then onRequestReplyReceived x m reply else none
  | Call.setHandleUserAuthentication set => some (setHandleUserAuthentication m set)
  | Call.getUserAuthorization authorizationEndpoint =>
    some (getUserAuthorization m authorizationEndpoint)
  | Call.onVerificationReceived response => some (onVerificationReceived m response)
  | Call.sendAuthorizedRequest requestEndpoint requestParameters =>
    sendAuthorizedRequest x m requestEndpoint requestParameters

/-- The state after a sequence of calls, oldest first. -/
def run (x : Externals Req) : Manager Req → List (Call Req) → Option (Manager Req)
  | m, [] => some m
  | m, call :: calls =>
    match perform x m call with
    | none => none
    | some m => run x m calls

/-- The states a manager can be in: those a sequence of calls leads to from a
freshly constructed manager, whatever the values of its uninitialised
members. -/
def Reachable (x : Externals Req) (m : Manager Req) : Prop :=
  ∃ (currentRequestType : RequestType) (hasTemporaryToken : Bool) (calls : List (Call Req)),
    run x (newManager x currentRequestType hasTemporaryToken) calls = some m

/-- The states a manager can be in when its member `hasTemporaryToken` starts
out false. -/
def ReachableClean (x : Externals Req) (m : Manager Req) : Prop :=
  ∃ (currentRequestType : RequestType) (calls : List (Call Req)),
    run x (newManager x currentRequestType false) calls = some m

/-! ## A concrete request class, for evaluating the manager -/

/-- A plain record implementation of the request class: the members the
manager reads, and the values its setters store. -/
structure PlainRequest where
  requestType : RequestType
  requestEndpoint : QUrl
  oauthConsumerKey : QString
  oauthConsumerSecretKey : QString
  oauthCallbackUrl : QUrl
  oauthSignatureMethod : RequestSignatureMethod
  oauthToken : QString
  oauthTokenSecret : QString
  requestBody : KQOAuthParameters
deriving DecidableEq, Repr

/-- An invalid, empty URL, as the default constructor `QUrl()` makes it. -/
def emptyUrl : QUrl := { isValid := false, location := [], queryItems := [] }

/-- A valid URL without a query. -/
def plainUrl (location : String) : QUrl :=
  { isValid := true, location := location.toList, queryItems := [] }

/-- A request object right after construction. -/
def PlainRequest.empty : PlainRequest :=
  { requestType := RequestType.TemporaryCredentials
    requestEndpoint := emptyUrl
    oauthConsumerKey := []
    oauthConsumerSecretKey := []
    oauthCallbackUrl := emptyUrl
    oauthSignatureMethod := RequestSignatureMethod.HMAC_SHA1
    oauthToken := []
    oauthTokenSecret := []
    requestBody := [] }

/-- The OAuth parameters of a plain request, unsigned: the consumer key and
the token. -/
def PlainRequest.parameters (request : PlainRequest) : List QByteArray :=
  [ "oauth_consumer_key=".toList ++ request.oauthConsumerKey,
    "oauth_token=".toList ++ request.oauthToken ]

/-- The body of a plain request: its parameters as `key=value`, joined by
`&`. -/
def PlainRequest.body (request : PlainRequest) : QByteArray :=
  List.intercalate ['&'] (request.requestBody.map (fun p => p.1 ++ '=' :: p.2))

/-- The externals over plain requests. A request is valid when it has a
consumer key and a consumer secret; `initRequest` keeps the consumer credentials;
every string is a valid URL. -/
def plainExternals : Externals PlainRequest :=
  { newRequest := PlainRequest.empty
    requestType := fun request => request.requestType
    requestEndpoint := fun request => request.requestEndpoint
    isValid := fun request =>
      !request.oauthConsumerKey.isEmpty && !request.oauthConsumerSecretKey.isEmpty
    requestParameters := fun request => (request.parameters, request)
    requestBody := fun request => request.body
    oauthConsumerKey := fun request => request.oauthConsumerKey
    oauthConsumerSecretKey := fun request => request.oauthConsumerSecretKey
    oauthCallbackUrl := fun request => request.oauthCallbackUrl
    setCallbackUrl := fun request url => { request with oauthCallbackUrl := url }
    setConsumerKey := fun request key => { request with oauthConsumerKey := key }
    setConsumerSecretKey := fun request key => { request with oauthConsumerSecretKey := key }
    setSignatureMethod := fun request method => { request with oauthSignatureMethod := method }
    setToken := fun request token => { request with oauthToken := token }
    setTokenSecret := fun request secret => { request with oauthTokenSecret := secret }
    setRequestBody := fun request parameters => { request with requestBody := parameters }
    initRequest := fun request type endpoint =>
      { request with requestType := type, requestEndpoint := endpoint }
    clearRequest := fun _ => PlainRequest.empty
    urlOfString := fun s => { isValid := true, location := s, queryItems := [] }
    assignedPort := 49152 }

/-- A valid plain request of the given kind to the given endpoint, with
consumer key `ck` and consumer secret `cs`. -/
def plainRequest (type : RequestType) (endpoint : String) : PlainRequest :=
  { PlainRequest.empty with
    requestType := type
    requestEndpoint := plainUrl endpoint
    oauthConsumerKey := "ck".toList
    oauthConsumerSecretKey := "cs".toList }

/-- An error-free reply with the given body. -/
def okReply (body : String) : QNetworkReply :=
  { error := QNetworkError.NoError, body := body.toList }

/-! ## Auxiliary notions used in the statements -/

/-- How a state `m'` may differ from `m` in its tokens and flags after a reply
has been handled: either both stored strings are non-empty afterwards, or they
are unchanged and each of the two flags is unchanged or cleared. -/
def TokenStep {Req : Type} (m m' : Manager Req) : Prop :=
  m'.isVerified = m.isVerified ∧
  ((m'.requestToken ≠ [] ∧ m'.requestTokenSecret ≠ []) ∨
    (m'.requestToken = m.requestToken ∧ m'.requestTokenSecret = m.requestTokenSecret
      ∧ (m'.hasTemporaryToken = m.hasTemporaryToken ∨ m'.hasTemporaryToken = false)
      ∧ (m'.isAuthorized = m.isAuthorized ∨ m'.isAuthorized = false)))

/-- The request object as `executeRequest` asks it for its parameters: with
the callback URL of the local server when the manager handles the user
authentication and the request is for temporary credentials, unchanged
otherwise. -/
def requestAsSent {Req : Type} (x : Externals Req) (m : Manager Req) (req : Req) : Req :=
  if m.autoAuth && x.requestType req = RequestType.TemporaryCredentials then
    x.setCallbackUrl req (x.urlOfString ("http://localhost:".toList
      ++ (Nat.repr (m.callbackServer.listen x.assignedPort).2.serverPort).toList))
  else req

/-- The post `executeRequest` makes for an accepted request. -/
def postOf {Req : Type} (x : Externals Req) (m : Manager Req) (req : Req) : NetworkPost :=
  { url := x.requestEndpoint req
    authorization := authHeaderOf (x.requestParameters (requestAsSent x m req)).1
    contentType := "application/x-www-form-urlencoded".toList
    body := x.requestBody (x.requestParameters (requestAsSent x m req)).2 }

/-- One pair of a form body: `key=value`. -/
def formSegment (p : QString × QString) : QString :=
  p.1 ++ '=' :: p.2

/-- Segments joined by `&`. -/
def joinSegments : List QString → QString
  | [] => []
  | [segment] => segment
  | segment :: next :: rest => segment ++ '&' :: joinSegments (next :: rest)

/-- The segments of a form body: every pair as `key=value`, followed by the
given number of extra empty segments. -/
def formSegments : List ((QString × QString) × Nat) → List QString
  | [] => []
  | (p, extra) :: rest => formSegment p :: (List.replicate extra [] ++ formSegments rest)

/-- The form body of a list of pairs: `lead` empty segments, then the pairs as
`key=value`, each followed by its number of extra empty segments, all joined by
`&`. -/
def formBody (lead : Nat) (items : List ((QString × QString) × Nat)) : QString :=
  joinSegments (List.replicate lead [] ++ formSegments items)

/-- The map built by inserting the pairs one after the other into the empty
map. -/
def insertAll (pairs : List (QString × QString)) : QMultiMap :=
  pairs.foldl (fun result p => QMultiMap.insert result p.1 p.2) []

/-- The signals the reply slot emits for an error-free reply decoded to
`requestResponse` under the request kind `kind`. -/
def signalsOfReply (kind : RequestType) (requestResponse : QMultiMap) : List Signal :=
  Signal.requestReady requestResponse ::
    (if kind = RequestType.TemporaryCredentials ∨ kind = RequestType.AccessToken then
      [Signal.receivedToken (requestResponse.value oauthTokenKey)
        (requestResponse.value oauthTokenSecretKey)]
    else [])

/-- The number of `requestReady` signals in a log. -/
def countRequestReady : List Signal → Nat
  | [] => 0
  | Signal.requestReady _ :: rest => countRequestReady rest + 1
  | Signal.receivedToken _ _ :: rest => countRequestReady rest

/-- The request of the temporary-credentials scenario. -/
def temporaryCredentialsRequest : PlainRequest :=
  plainRequest RequestType.TemporaryCredentials "https://example.com/request_token"

/-- The request of the access-token scenario. -/
def accessTokenRequest : PlainRequest :=
  plainRequest RequestType.AccessToken "https://example.com/access_token"

/-- The reply of the scenarios: no transport error, and a body with a token
and a secret. -/
def tokenReply : QNetworkReply :=
  okReply "oauth_token=abc&oauth_token_secret=xyz"

/-- A freshly constructed manager over plain requests, its uninitialised
members being `AuthorizedRequest` and `false`. -/
def freshManager : Manager PlainRequest :=
  newManager plainExternals RequestType.AuthorizedRequest false

/-- The state after `executeRequest(request)` on a fresh manager. -/
def dispatched (request : PlainRequest) : Manager PlainRequest :=
  (executeRequest plainExternals freshManager (RequestPtr.object request)).getD freshManager

/-- The state after `executeRequest(request)` followed by `executeRequest(0)`
on a fresh manager. -/
def dispatchedThenNull (request : PlainRequest) : Manager PlainRequest :=
  (executeRequest plainExternals (dispatched request) RequestPtr.null).getD freshManager

/-- The state after an accepted access-token request and one run of the reply
slot, the only connected one, on the reply of the scenarios: the manager is
authorized. -/
def authorizedState : Manager PlainRequest :=
  (onRequestReplyReceived plainExternals (dispatched accessTokenRequest) tokenReply).getD
    freshManager

/-- The endpoint of the authorized requests of the scenarios. -/
def resourceUrl : QUrl := plainUrl "https://example.com/resource"

/-- The state after `sendAuthorizedRequest` in the authorized state: the cached
request `d->r` is the opaque request. -/
def authorizedRequestSentState : Manager PlainRequest :=
  (sendAuthorizedRequest plainExternals authorizedState resourceUrl
    [("status".toList, "hello".toList)]).getD freshManager

/-- The state after `sendAuthorizedRequest` in the authorized state followed by
`executeRequest(request)` with a request of the caller: the opaque request has
been deleted. -/
def opaqueDeletedState (request : PlainRequest) : Manager PlainRequest :=
  (executeRequest plainExternals authorizedRequestSentState
    (RequestPtr.object request)).getD freshManager

/-- An authorized request of the caller's own. -/
def resourceRequest : PlainRequest :=
  plainRequest RequestType.AuthorizedRequest "https://example.com/resource"

/-- A reply without transport error whose body has a token but no secret. -/
def tokenOnlyReply : QNetworkReply :=
  okReply "oauth_token=abc"

/-- A reply that failed with `QNetworkReply::ConnectionRefusedError`, whose
numeric code is 1. -/
def connectionRefusedReply : QNetworkReply :=
  { error := QNetworkError.OtherError 1, body := [] }

/-! ## Theorems: the response decoder -/

/-- A string without the separator is its own single piece. -/
theorem qsplit_of_not_mem (sep : Char) (s : QString) (h : sep ∉ s) : qsplit sep s = [s] := by
  induction s with
  | nil => rfl
  | cons c cs ih =>
    have hc : c ≠ sep := fun e => h (by simp [e])
    have hcs : sep ∉ cs := fun e => h (by simp [e])
    simp [qsplit, hc, ih hcs]

/-- The first piece ends at the first separator. -/
theorem qsplit_append_sep (sep : Char) (k rest : QString) (h : sep ∉ k) :
    qsplit sep (k ++ sep :: rest) = k :: qsplit sep rest := by
  induction k with
  | nil => simp [qsplit]
  | cons c cs ih =>
    have hc : c ≠ sep := fun e => h (by simp [e])
    have hcs : sep ∉ cs := fun e => h (by simp [e])
    simp [qsplit, hc, ih hcs]

/-- The key and value of a pair `k=v` or `k=v=t`. -/
theorem parameterOfPair_eq (k v rest : QString) (hk : '=' ∉ k) (hv : '=' ∉ v)
    (hrest : rest = [] ∨ ∃ t, rest = '=' :: t) :
    parameterOfPair (k ++ '=' :: (v ++ rest)) = (k, v) := by
  rcases hrest with rfl | ⟨t, rfl⟩
  · simp [parameterOfPair, qsplit_append_sep _ _ _ hk, qsplit_of_not_mem _ _ hv, qlistValue]
  · simp [parameterOfPair, qsplit_append_sep _ _ _ hk, qsplit_append_sep _ _ _ hv, qlistValue]

/-- A byte array without a 0 byte is converted unchanged. -/
theorem qstringOfByteArray_of_not_mem (bytes : QByteArray) (h : '\x00' ∉ bytes) :
    qstringOfByteArray bytes = bytes := by
  induction bytes with
  | nil => rfl
  | cons c cs ih =>
    have hc : c ≠ '\x00' := fun e => h (by simp [e])
    have hcs : '\x00' ∉ cs := fun e => h (by simp [e])
    simp [qstringOfByteArray, hc, ih hcs]

/-- The converted string contains no 0 byte. -/
theorem not_mem_qstringOfByteArray (bytes : QByteArray) :
    '\x00' ∉ qstringOfByteArray bytes := by
  induction bytes with
  | nil => simp [qstringOfByteArray]
  | cons c cs ih =>
    by_cases hc : c = '\x00'
    · simp [qstringOfByteArray, hc]
    · simp only [qstringOfByteArray, hc, if_false, List.mem_cons, not_or]
      exact ⟨fun e => hc e.symm, ih⟩

/-- The converted string is the byte array itself, or the part of it before
its first 0 byte. -/
theorem qstringOfByteArray_spec (bytes : QByteArray) :
    bytes = qstringOfByteArray bytes
      ∨ ∃ rest, bytes = qstringOfByteArray bytes ++ '\x00' :: rest := by
  induction bytes with
  | nil => exact Or.inl rfl
  | cons c cs ih =>
    by_cases hc : c = '\x00'
    · exact Or.inr ⟨cs, by simp [qstringOfByteArray, hc]⟩
    · rcases ih with h | ⟨rest, h⟩
      · exact Or.inl (by simp only [qstringOfByteArray, hc, if_false]; rw [← h])
      · refine Or.inr ⟨rest, ?_⟩
        simp only [qstringOfByteArray, hc, if_false, List.cons_append]
        rw [← h]

/-- The function `qsplit` never returns the empty list. -/
theorem qsplit_ne_nil (sep : Char) (s : QString) : qsplit sep s ≠ [] := by
  cases s with
  | nil => simp [qsplit]
  | cons c cs =>
    by_cases hc : c = sep
    · simp [qsplit, hc]
    · cases h : qsplit sep cs <;> simp [qsplit, hc, h]

/-- No piece of a split contains the separator. -/
theorem not_mem_of_mem_qsplit (sep : Char) (s : QString) :
    ∀ piece ∈ qsplit sep s, sep ∉ piece := by
  induction s with
  | nil => simp [qsplit]
  | cons c cs ih =>
    by_cases hc : c = sep
    · intro piece hp
      simp only [qsplit, hc, if_true, List.mem_cons] at hp
      rcases hp with rfl | hp
      · simp
      · exact ih piece hp
    · cases h : qsplit sep cs with
      | nil => exact absurd h (qsplit_ne_nil sep cs)
      | cons piece pieces =>
        rw [h] at ih
        intro q hq
        simp only [qsplit, hc, if_false, h, List.mem_cons] at hq
        rcases hq with rfl | hq
        · intro hmem
          rcases List.mem_cons.mp hmem with e | e
          · exact hc e.symm
          · exact ih piece (List.mem_cons_self _ _) e
        · exact ih q (List.mem_cons_of_mem _ hq)

/-- The pieces of a split at `&`, joined by `&`, are the string. -/
theorem joinSegments_qsplit (s : QString) : joinSegments (qsplit '&' s) = s := by
  induction s with
  | nil => simp [qsplit, joinSegments]
  | cons c cs ih =>
    cases h : qsplit '&' cs with
    | nil => exact absurd h (qsplit_ne_nil _ cs)
    | cons piece pieces =>
      rw [h] at ih
      by_cases hc : c = '&'
      · simp [qsplit, hc, h, joinSegments, ih]
      · cases pieces with
        | nil =>
          simp only [joinSegments] at ih
          simp [qsplit, hc, h, joinSegments, ih]
        | cons next rest =>
          simp only [joinSegments] at ih
          simp [qsplit, hc, h, joinSegments, ih]

/-- Splitting a joined list of segments gives the segments back. -/
theorem qsplit_joinSegments (segments : List QString) (hne : segments ≠ [])
    (h : ∀ segment ∈ segments, '&' ∉ segment) :
    qsplit '&' (joinSegments segments) = segments := by
  induction segments with
  | nil => exact absurd rfl hne
  | cons segment rest ih =>
    have hs : '&' ∉ segment := h segment (List.mem_cons_self _ _)
    cases rest with
    | nil => simpa [joinSegments] using qsplit_of_not_mem '&' segment hs
    | cons next rest =>
      have hrest := ih (by simp) (fun q hq => h q (List.mem_cons_of_mem _ hq))
      simp only [joinSegments]
      rw [qsplit_append_sep '&' segment _ hs, hrest]

/-- The non-empty pieces of a joined list of segments are its non-empty
segments. -/
theorem qsplitSkipEmptyParts_joinSegments (segments : List QString)
    (h : ∀ segment ∈ segments, '&' ∉ segment) :
    qsplitSkipEmptyParts '&' (joinSegments segments)
      = segments.filter (fun piece => !piece.isEmpty) := by
  cases segments with
  | nil => simp [qsplitSkipEmptyParts, joinSegments, qsplit]
  | cons segment rest =>
    rw [qsplitSkipEmptyParts, qsplit_joinSegments _ (by simp) h]

/-- The function `createRequestResponse` inserts the decoded pairs of the
non-empty segments of the reply text, first to last, into the empty map. -/
theorem createRequestResponse_eq_insertAll (body : QByteArray) :
    createRequestResponse body
      = insertAll ((qsplitSkipEmptyParts '&' (qstringOfByteArray body)).map parameterOfPair) := by
  simp [createRequestResponse, insertAll, List.foldl_map]

/-- The non-empty segments of a form body are its pairs. -/
theorem filter_formSegments (lead : Nat) (items : List ((QString × QString) × Nat)) :
    (List.replicate lead [] ++ formSegments items).filter (fun piece => !piece.isEmpty)
      = (items.map Prod.fst).map formSegment := by
  have hrep : ∀ n : Nat, (List.replicate n ([] : QString)).filter (fun piece => !piece.isEmpty) = [] := by
    intro n
    induction n with
    | zero => rfl
    | succ n ih => simp [List.replicate_succ, ih]
  have hitems : (formSegments items).filter (fun piece => !piece.isEmpty)
      = (items.map Prod.fst).map formSegment := by
    induction items with
    | nil => rfl
    | cons item rest ih =>
      obtain ⟨p, extra⟩ := item
      simp [formSegments, List.filter_append, hrep, ih, formSegment]
  rw [List.filter_append, hrep, hitems, List.nil_append]

/-- Segments without a 0 byte join to a string without a 0 byte. -/
theorem not_mem_joinSegments (segments : List QString)
    (h : ∀ segment ∈ segments, '\x00' ∉ segment) : '\x00' ∉ joinSegments segments := by
  induction segments with
  | nil => simp [joinSegments]
  | cons segment rest ih =>
    have hs := h segment (List.mem_cons_self _ _)
    cases rest with
    | nil => simpa [joinSegments] using hs
    | cons next rest =>
      have hrest := ih (fun q hq => h q (List.mem_cons_of_mem _ hq))
      simp only [joinSegments, List.mem_append, List.mem_cons, not_or]
      exact ⟨hs, by decide, hrest⟩

/-! ## Theorems: the multimap -/

/-- Inserting adds exactly the new item. -/
theorem insert_perm (m : QMultiMap) (key value : QString) :
    List.Perm (QMultiMap.insert m key value) ((key, value) :: m) := by
  induction m with
  | nil => simp [QMultiMap.insert]
  | cons item rest ih =>
    obtain ⟨k, v⟩ := item
    by_cases h : qstringLt k key = true
    · simp only [QMultiMap.insert, h, if_true]
      exact (List.Perm.cons _ ih).trans (List.Perm.swap _ _ _)
    · simp only [QMultiMap.insert, h]
      exact List.Perm.refl _

/-- Inserting a list of pairs into a map adds exactly these pairs. -/
theorem foldl_insert_perm (pairs : List (QString × QString)) :
    ∀ m : QMultiMap,
      List.Perm (pairs.foldl (fun result p => QMultiMap.insert result p.1 p.2) m) (m ++ pairs) := by
  induction pairs with
  | nil => intro m; simp
  | cons p rest ih =>
    intro m
    simp only [List.foldl_cons]
    refine (ih _).trans ?_
    refine (List.Perm.append_right rest (insert_perm m p.1 p.2)).trans ?_
    simpa using (@List.perm_middle _ p m rest).symm

/-- The map of a list of pairs holds exactly these pairs. -/
theorem insertAll_perm (pairs : List (QString × QString)) :
    List.Perm (insertAll pairs) pairs := by
  simpa [insertAll] using foldl_insert_perm pairs []

/-- The order on keys is irreflexive. -/
theorem qstringLt_irrefl (a : QString) : qstringLt a a = false := by
  induction a with
  | nil => rfl
  | cons c cs ih => simp [qstringLt, ih]

/-- The order on keys is asymmetric. -/
theorem qstringLt_asymm : ∀ a b : QString, qstringLt a b = true → qstringLt b a = false := by
  intro a
  induction a with
  | nil =>
    intro b _
    cases b <;> rfl
  | cons c cs ih =>
    intro b h
    cases b with
    | nil => simp [qstringLt] at h
    | cons d ds =>
      simp only [qstringLt] at h ⊢
      by_cases h1 : c.toNat < d.toNat
      · have h2 : ¬ d.toNat < c.toNat := by omega
        simp [h2, h1]
      · by_cases h2 : d.toNat < c.toNat
        · simp [h1, h2] at h
        · simp only [h1, h2, if_false] at h ⊢
          exact ih ds h

/-- If `a` is not above `b` and `b` is not above `c`, then `a` is not above
`c`. -/
theorem qstringLt_not_trans : ∀ a b c : QString,
    qstringLt b a = false → qstringLt c b = false → qstringLt c a = false := by
  intro a
  induction a with
  | nil =>
    intro b c hab hbc
    cases c <;> rfl
  | cons x xs ih =>
    intro b c hab hbc
    cases b with
    | nil => simp [qstringLt] at hab
    | cons y ys =>
      cases c with
      | nil => simp [qstringLt] at hbc
      | cons z zs =>
        simp only [qstringLt] at hab hbc ⊢
        by_cases h1 : y.toNat < x.toNat
        · simp [h1] at hab
        · by_cases h2 : z.toNat < y.toNat
          · simp [h2] at hbc
          · by_cases h3 : x.toNat < y.toNat
            · have h4 : ¬ z.toNat < x.toNat := by omega
              by_cases h5 : x.toNat < z.toNat
              · simp [h4, h5]
              · exfalso; omega
            · by_cases h5 : y.toNat < z.toNat
              · have h4 : ¬ z.toNat < x.toNat := by omega
                have h6 : x.toNat < z.toNat := by omega
                simp [h4, h6]
              · have h4 : ¬ z.toNat < x.toNat := by omega
                have h6 : ¬ x.toNat < z.toNat := by omega
                simp only [h1, h3, h2, h5, h4, h6, if_false] at hab hbc ⊢
                exact ih ys zs hab hbc

/-- Inserting keeps a map in ascending order of its keys. -/
theorem insert_sorted (m : QMultiMap) (key value : QString)
    (h : m.Pairwise (fun a b => qstringLt b.1 a.1 = false)) :
    (QMultiMap.insert m key value).Pairwise (fun a b => qstringLt b.1 a.1 = false) := by
  induction m with
  | nil => simp [QMultiMap.insert]
  | cons item rest ih =>
    obtain ⟨k, v⟩ := item
    rw [List.pairwise_cons] at h
    by_cases hk : qstringLt k key = true
    · simp only [QMultiMap.insert, hk, if_true]
      rw [List.pairwise_cons]
      refine ⟨?_, ih h.2⟩
      intro b hb
      rcases List.mem_cons.mp ((insert_perm rest key value).mem_iff.mp hb) with e | e
      · rw [e]
        exact qstringLt_asymm _ _ hk
      · exact h.1 b e
    · have hk' : qstringLt k key = false := by simpa using hk
      simp only [QMultiMap.insert, hk', Bool.false_eq_true, if_false]
      rw [List.pairwise_cons]
      refine ⟨?_, List.pairwise_cons.mpr h⟩
      intro b hb
      rcases List.mem_cons.mp hb with e | e
      · rw [e]; exact hk'
      · exact qstringLt_not_trans key k b.1 hk' (h.1 b e)

/-- The map of a list of pairs is in ascending order of its keys. -/
theorem insertAll_sorted (pairs : List (QString × QString)) :
    (insertAll pairs).Pairwise (fun a b => qstringLt b.1 a.1 = false) := by
  have key : ∀ m : QMultiMap, m.Pairwise (fun a b => qstringLt b.1 a.1 = false) →
      (pairs.foldl (fun result p => QMultiMap.insert result p.1 p.2) m).Pairwise
        (fun a b => qstringLt b.1 a.1 = false) := by
    induction pairs with
    | nil => intro m hm; exact hm
    | cons p rest ih =>
      intro m hm
      exact ih _ (insert_sorted m p.1 p.2 hm)
  exact key [] List.Pairwise.nil

/-- An item whose key is above every key of the map is inserted at the end. -/
theorem insert_eq_append (m : QMultiMap) (key value : QString)
    (h : ∀ a ∈ m, qstringLt a.1 key = true) :
    QMultiMap.insert m key value = m ++ [(key, value)] := by
  induction m with
  | nil => rfl
  | cons item rest ih =>
    obtain ⟨k, v⟩ := item
    have hk : qstringLt k key = true := h (k, v) (List.mem_cons_self _ _)
    simp only [QMultiMap.insert, hk, if_true, List.cons_append]
    rw [ih (fun a ha => h a (List.mem_cons_of_mem _ ha))]

/-- A list of pairs with strictly ascending keys is its own map. -/
theorem insertAll_of_ascending (pairs : List (QString × QString))
    (h : pairs.Pairwise (fun a b => qstringLt a.1 b.1 = true)) :
    insertAll pairs = pairs := by
  have key : ∀ (ps : List (QString × QString)) (m : QMultiMap),
      ps.Pairwise (fun a b => qstringLt a.1 b.1 = true) →
      (∀ a ∈ m, ∀ p ∈ ps, qstringLt a.1 p.1 = true) →
      ps.foldl (fun result p => QMultiMap.insert result p.1 p.2) m = m ++ ps := by
    intro ps
    induction ps with
    | nil => intro m _ _; simp
    | cons p rest ih =>
      intro m hps hm
      rw [List.pairwise_cons] at hps
      simp only [List.foldl_cons]
      rw [insert_eq_append m p.1 p.2 (fun a ha => hm a ha p (List.mem_cons_self _ _))]
      rw [ih (m ++ [p]) hps.2 ?_]
      · simp
      · intro a ha q hq
        rcases List.mem_append.mp ha with ha | ha
        · exact hm a ha q (List.mem_cons_of_mem _ hq)
        · simp only [List.mem_cons, List.not_mem_nil, or_false] at ha
          subst ha
          exact hps.1 q hq
  simpa [insertAll] using key pairs [] h (by simp)

/-! ## Theorems: decoding form bodies -/

/-- A segment without `=` decodes to itself as the key, with an empty value. -/
theorem parameterOfPair_of_not_mem (segment : QString) (h : '=' ∉ segment) :
    parameterOfPair segment = (segment, []) := by
  simp [parameterOfPair, qsplit_of_not_mem _ _ h, qlistValue]

/-- The segment `key=value` decodes to the pair, when neither part contains
`=`. -/
theorem parameterOfPair_formSegment (p : QString × QString) (hk : '=' ∉ p.1) (hv : '=' ∉ p.2) :
    parameterOfPair (formSegment p) = p := by
  have := parameterOfPair_eq p.1 p.2 [] hk hv (Or.inl rfl)
  simpa [formSegment] using this

/-- No segment of a form body contains `&`, when no key and no value does. -/
theorem not_mem_formSegments (lead : Nat) (items : List ((QString × QString) × Nat))
    (h : ∀ item ∈ items, '&' ∉ item.1.1 ∧ '&' ∉ item.1.2) :
    ∀ segment ∈ List.replicate lead [] ++ formSegments items, '&' ∉ segment := by
  have hitems : ∀ segment ∈ formSegments items, '&' ∉ segment := by
    induction items with
    | nil => simp [formSegments]
    | cons item rest ih =>
      obtain ⟨p, extra⟩ := item
      intro segment hs
      simp only [formSegments, List.mem_cons, List.mem_append] at hs
      rcases hs with rfl | hs | hs
      · have hp := h (p, extra) (List.mem_cons_self _ _)
        simp only [formSegment, List.mem_append, List.mem_cons, not_or]
        exact ⟨hp.1, by decide, hp.2⟩
      · rw [(List.mem_replicate.mp hs).2]
        simp
      · exact ih (fun item hi => h item (List.mem_cons_of_mem _ hi)) segment hs
  intro segment hs
  rcases List.mem_append.mp hs with hs | hs
  · rw [(List.mem_replicate.mp hs).2]
    simp
  · exact hitems segment hs

/-- No segment of a form body contains a 0 byte, when no key and no value
does. -/
theorem not_mem_formSegments_zero (lead : Nat) (items : List ((QString × QString) × Nat))
    (h : ∀ item ∈ items, '\x00' ∉ item.1.1 ∧ '\x00' ∉ item.1.2) :
    ∀ segment ∈ List.replicate lead [] ++ formSegments items, '\x00' ∉ segment := by
  have hitems : ∀ segment ∈ formSegments items, '\x00' ∉ segment := by
    induction items with
    | nil => simp [formSegments]
    | cons item rest ih =>
      obtain ⟨p, extra⟩ := item
      intro segment hs
      simp only [formSegments, List.mem_cons, List.mem_append] at hs
      rcases hs with rfl | hs | hs
      · have hp := h (p, extra) (List.mem_cons_self _ _)
        simp only [formSegment, List.mem_append, List.mem_cons, not_or]
        exact ⟨hp.1, by decide, hp.2⟩
      · rw [(List.mem_replicate.mp hs).2]
        simp
      · exact ih (fun item hi => h item (List.mem_cons_of_mem _ hi)) segment hs
  intro segment hs
  rcases List.mem_append.mp hs with hs | hs
  · rw [(List.mem_replicate.mp hs).2]
    simp
  · exact hitems segment hs

/-- C11, refuted as stated. The pairs `b=1`, `a=2` encode to the body `b=1&a=2`,
which decodes to `a=2`, `b=1`: the original pairs, but not in the original
order. And a pair whose key ends in a 0 byte does not come back: the reply text
ends at that byte. -/
theorem createRequestResponse_reorders :
    formBody 0 [(("b".toList, "1".toList), 0), (("a".toList, "2".toList), 0)] = "b=1&a=2".toList
      ∧ createRequestResponse "b=1&a=2".toList
          = [("a".toList, "2".toList), ("b".toList, "1".toList)]
      ∧ createRequestResponse "b=1&a=2".toList
          ≠ [("b".toList, "1".toList), ("a".toList, "2".toList)]
      ∧ createRequestResponse (formBody 0 [(("k\x00".toList, "1".toList), 0)])
          = [("k".toList, [])] := by
  refine ⟨?_, ?_, ?_, ?_⟩ <;> decide

/-- C11, amended. For every list of pairs whose keys and values contain neither
`&` nor `=` nor a 0 byte, encoded as a form body with any number of extra empty
segments before, between and after the pairs: decoding yields the map obtained
by inserting the pairs in their order, which holds exactly the original pairs, in
ascending order of their keys; it is the original list when the keys of the list
are strictly ascending. -/
theorem createRequestResponse_formBody (lead : Nat) (items : List ((QString × QString) × Nat))
    (hclean : ∀ item ∈ items,
      ('&' ∉ item.1.1 ∧ '=' ∉ item.1.1 ∧ '\x00' ∉ item.1.1)
        ∧ ('&' ∉ item.1.2 ∧ '=' ∉ item.1.2 ∧ '\x00' ∉ item.1.2)) :
    createRequestResponse (formBody lead items) = insertAll (items.map Prod.fst)
      ∧ List.Perm (createRequestResponse (formBody lead items)) (items.map Prod.fst)
      ∧ (createRequestResponse (formBody lead items)).Pairwise
          (fun a b => qstringLt b.1 a.1 = false)
      ∧ ((items.map Prod.fst).Pairwise (fun a b => qstringLt a.1 b.1 = true) →
          createRequestResponse (formBody lead items) = items.map Prod.fst) := by
  have hdecode : ((items.map Prod.fst).map formSegment).map parameterOfPair
      = items.map Prod.fst := by
    rw [List.map_map]
    conv => rhs; rw [← List.map_id (items.map Prod.fst)]
    apply List.map_congr_left
    intro p hp
    obtain ⟨item, hitem, rfl⟩ := List.mem_map.mp hp
    have hc := hclean item hitem
    simpa using parameterOfPair_formSegment item.1 hc.1.2.1 hc.2.2.1
  have htext : qstringOfByteArray (formBody lead items) = formBody lead items :=
    qstringOfByteArray_of_not_mem _ (not_mem_joinSegments _
      (not_mem_formSegments_zero lead items
        (fun item hi => ⟨(hclean item hi).1.2.2, (hclean item hi).2.2.2⟩)))
  have heq : createRequestResponse (formBody lead items) = insertAll (items.map Prod.fst) := by
    rw [createRequestResponse_eq_insertAll, htext, formBody,
      qsplitSkipEmptyParts_joinSegments _
        (not_mem_formSegments lead items (fun item hi => ⟨(hclean item hi).1.1, (hclean item hi).2.1⟩)),
      filter_formSegments, hdecode]
  refine ⟨heq, ?_, ?_, ?_⟩
  · rw [heq]; exact insertAll_perm _
  · rw [heq]; exact insertAll_sorted _
  · intro hasc
    rw [heq]; exact insertAll_of_ascending _ hasc

/-- C11, an instance: the pairs `a=1`, `b=2` with one empty segment before
them and two between them. -/
theorem createRequestResponse_formBody_witness :
    formBody 1 [(("a".toList, "1".toList), 2), (("b".toList, "2".toList), 0)]
        = "&a=1&&&b=2".toList
      ∧ createRequestResponse
          (formBody 1 [(("a".toList, "1".toList), 2), (("b".toList, "2".toList), 0)])
        = [("a".toList, "1".toList), ("b".toList, "2".toList)] :=
  ⟨by decide,
    (createRequestResponse_formBody 1
      [(("a".toList, "1".toList), 2), (("b".toList, "2".toList), 0)]
      (by decide)).2.2.2 (by decide)⟩

/-- C12, refuted as stated. The body `a=1`, 0 byte, `&b=2` has the two non-empty
segments `a=1`, 0 byte, and `b=2`, but decodes to the single entry `a=1`: the
reply text ends at the 0 byte. -/
theorem createRequestResponse_stops_at_zero_byte :
    (qsplit '&' "a=1\x00&b=2".toList).filter (fun segment => !segment.isEmpty)
        = ["a=1\x00".toList, "b=2".toList]
      ∧ createRequestResponse "a=1\x00&b=2".toList = [("a".toList, "1".toList)] := by
  constructor <;> decide

/-- C12, amended. For every body, with its reply text being the body up to its
first 0 byte (the body itself when it has none): the pieces of the split of the
text at `&` are the segments of the text (joined by `&` they give the text back,
and none contains `&`); the map holds exactly one entry per non-empty segment of
the text, namely the decoded pair of that segment; a segment without `=` decodes
to the whole segment as the key with the empty string as the value; and the
empty body gives the empty map. -/
theorem createRequestResponse_entries (body : QByteArray) :
    (body = qstringOfByteArray body
        ∨ ∃ rest, body = qstringOfByteArray body ++ '\x00' :: rest)
      ∧ '\x00' ∉ qstringOfByteArray body
      ∧ joinSegments (qsplit '&' (qstringOfByteArray body)) = qstringOfByteArray body
      ∧ (∀ segment ∈ qsplit '&' (qstringOfByteArray body), '&' ∉ segment)
      ∧ List.Perm (createRequestResponse body)
          (((qsplit '&' (qstringOfByteArray body)).filter
            (fun segment => !segment.isEmpty)).map parameterOfPair)
      ∧ (createRequestResponse body).length
          = ((qsplit '&' (qstringOfByteArray body)).filter
              (fun segment => !segment.isEmpty)).length
      ∧ (∀ segment : QString, '=' ∉ segment → parameterOfPair segment = (segment, []))
      ∧ createRequestResponse [] = [] := by
  have hperm : List.Perm (createRequestResponse body)
      (((qsplit '&' (qstringOfByteArray body)).filter
        (fun segment => !segment.isEmpty)).map parameterOfPair) := by
    rw [createRequestResponse_eq_insertAll]
    exact insertAll_perm _
  refine ⟨qstringOfByteArray_spec body, not_mem_qstringOfByteArray body,
    joinSegments_qsplit _, not_mem_of_mem_qsplit '&' _, hperm, ?_,
    parameterOfPair_of_not_mem, by decide⟩
  simpa using hperm.length_eq

/-- C12, an instance: the body `a&&b=1`, 0 byte, `&c` has the reply text `a&&b=1`,
whose two non-empty segments give two entries, the segment `a` without `=` giving
the key `a` with the empty value. -/
theorem createRequestResponse_entries_witness :
    qstringOfByteArray "a&&b=1\x00&c".toList = "a&&b=1".toList
      ∧ (createRequestResponse "a&&b=1\x00&c".toList).length
          = ((qsplit '&' (qstringOfByteArray "a&&b=1\x00&c".toList)).filter
              (fun segment => !segment.isEmpty)).length
      ∧ ((qsplit '&' (qstringOfByteArray "a&&b=1\x00&c".toList)).filter
          (fun segment => !segment.isEmpty)).length = 2
      ∧ parameterOfPair "a".toList = ("a".toList, []) :=
  ⟨by decide,
    (createRequestResponse_entries "a&&b=1\x00&c".toList).2.2.2.2.2.1,
    by decide,
    (createRequestResponse_entries "a&&b=1\x00&c".toList).2.2.2.2.2.2.1 "a".toList (by decide)⟩

/-! ## Theorems: the manager -/

/-- Updating the object behind a pointer writes neither the tokens nor the flags. -/
theorem store_fields (m : Manager Req) (p : RequestPtr Req) (v : Req) :
    (m.store p v).isVerified = m.isVerified ∧ (m.store p v).isAuthorized = m.isAuthorized
    ∧ (m.store p v).hasTemporaryToken = m.hasTemporaryToken
    ∧ (m.store p v).requestToken = m.requestToken
    ∧ (m.store p v).requestTokenSecret = m.requestTokenSecret := by
  cases p <;> simp [Manager.store]

/-- A successful call on the opaque request finds it live and changes only its
value. -/
theorem onOpaqueRequest_eq_some (m m' : Manager Req) (f : Req → Req)
    (h : m.onOpaqueRequest f = some m') :
    m.opaqueRequestDeleted = false ∧ m' = { m with opaqueRequest := f m.opaqueRequest } := by
  unfold Manager.onOpaqueRequest at h
  split_ifs at h with hd
  cases h
  exact ⟨by simpa using hd, rfl⟩

/-- A call on a live opaque request succeeds. -/
theorem onOpaqueRequest_of_live (m : Manager Req) (f : Req → Req)
    (h : m.opaqueRequestDeleted = false) :
    m.onOpaqueRequest f = some { m with opaqueRequest := f m.opaqueRequest } := by
  simp [Manager.onOpaqueRequest, h]

/-- A call on a deleted opaque request fails. -/
theorem onOpaqueRequest_of_deleted (m : Manager Req) (f : Req → Req)
    (h : m.opaqueRequestDeleted = true) : m.onOpaqueRequest f = none := by
  simp [Manager.onOpaqueRequest, h]

/-- Deleting the cached request changes at most the flag of the opaque
request. -/
theorem deleteCached_eq_some (m m' : Manager Req) (h : m.deleteCached = some m') :
    m' = m ∨ m' = { m with opaqueRequestDeleted := true } := by
  unfold Manager.deleteCached at h
  split at h
  · exact Or.inl (Option.some.inj h).symm
  · exact Or.inl (Option.some.inj h).symm
  · split_ifs at h
    exact Or.inr (Option.some.inj h).symm

/-- The checked part of `executeRequest` writes neither the tokens nor the
flags. -/
theorem executeChecked_fields (x : Externals Req) (m : Manager Req) (p : RequestPtr Req)
    (req : Req) :
    (executeChecked x m p req).isVerified = m.isVerified
    ∧ (executeChecked x m p req).isAuthorized = m.isAuthorized
    ∧ (executeChecked x m p req).hasTemporaryToken = m.hasTemporaryToken
    ∧ (executeChecked x m p req).requestToken = m.requestToken
    ∧ (executeChecked x m p req).requestTokenSecret = m.requestTokenSecret := by
  simp only [executeChecked]
  split_ifs <;> simp [store_fields, setupCallbackServer]

/-- The function `executeRequest` writes neither the tokens nor the flags. -/
theorem executeRequest_fields (x : Externals Req) (m m' : Manager Req) (p : RequestPtr Req)
    (h : executeRequest x m p = some m') :
    m'.isVerified = m.isVerified
    ∧ m'.isAuthorized = m.isAuthorized
    ∧ m'.hasTemporaryToken = m.hasTemporaryToken
    ∧ m'.requestToken = m.requestToken
    ∧ m'.requestTokenSecret = m.requestTokenSecret := by
  simp only [executeRequest] at h
  cases hd : m.deleteCached with
  | none => simp [hd] at h
  | some m1 =>
    have hm1 : m1.isVerified = m.isVerified ∧ m1.isAuthorized = m.isAuthorized
        ∧ m1.hasTemporaryToken = m.hasTemporaryToken ∧ m1.requestToken = m.requestToken
        ∧ m1.requestTokenSecret = m.requestTokenSecret := by
      rcases deleteCached_eq_some m m1 hd with e | e <;> simp [e]
    simp only [hd] at h
    split_ifs at h
    · cases h
      exact hm1
    · cases hr : ({ m1 with r := p } : Manager Req).deref p with
      | none => simp [hr] at h
      | some req =>
        simp only [hr, Option.some.injEq] at h
        subst h
        have := executeChecked_fields x { m1 with r := p } p req
        simpa [hm1] using this

/-- Preparing the opaque request writes neither the tokens nor the flags. -/
theorem prepareOpaqueRequest_fields (x : Externals Req) (m m' : Manager Req) (u : QUrl)
    (ps : KQOAuthParameters) (h : prepareOpaqueRequest x m u ps = some m') :
    ∃ o, m' = { m with opaqueRequest := o } := by
  by_cases hd : m.opaqueRequestDeleted = true
  · simp [prepareOpaqueRequest, Manager.onOpaqueRequest, hd] at h
  · have hd' : m.opaqueRequestDeleted = false := by simpa using hd
    simp [prepareOpaqueRequest, Manager.onOpaqueRequest, hd'] at h
    refine ⟨x.setTokenSecret (x.setToken (x.setRequestBody
      (x.initRequest m.opaqueRequest RequestType.AuthorizedRequest u) ps) m.requestToken)
      m.requestTokenSecret, ?_⟩
    rw [← h]
    simp [hd']

/-- The function `sendAuthorizedRequest` writes neither the tokens nor the flags. -/
theorem sendAuthorizedRequest_fields (x : Externals Req) (m m' : Manager Req) (u : QUrl)
    (ps : KQOAuthParameters) (h : sendAuthorizedRequest x m u ps = some m') :
    m'.isVerified = m.isVerified
    ∧ m'.isAuthorized = m.isAuthorized
    ∧ m'.hasTemporaryToken = m.hasTemporaryToken
    ∧ m'.requestToken = m.requestToken
    ∧ m'.requestTokenSecret = m.requestTokenSecret := by
  unfold sendAuthorizedRequest at h
  split_ifs at h
  · cases h; simp
  · cases h; simp
  · cases hp : prepareOpaqueRequest x m u ps with
    | none => simp [hp] at h
    | some m1 =>
      obtain ⟨o, rfl⟩ := prepareOpaqueRequest_fields x m m1 u ps hp
      simp only [hp] at h
      simpa using executeRequest_fields x _ m' _ h

/-- The function `getUserAuthorization` writes neither the tokens nor the flags. -/
theorem getUserAuthorization_fields (m : Manager Req) (u : QUrl) :
    (getUserAuthorization m u).isVerified = m.isVerified
    ∧ (getUserAuthorization m u).isAuthorized = m.isAuthorized
    ∧ (getUserAuthorization m u).hasTemporaryToken = m.hasTemporaryToken
    ∧ (getUserAuthorization m u).requestToken = m.requestToken
    ∧ (getUserAuthorization m u).requestTokenSecret = m.requestTokenSecret := by
  unfold getUserAuthorization
  split_ifs <;> simp

/-- Filling the opaque request reads `d->r`: with a null `d->r` it fails. -/
theorem fillOpaqueRequestForToken_null (x : Externals Req) (m : Manager Req)
    (h : m.r = RequestPtr.null) : fillOpaqueRequestForToken x m = none := by
  simp [fillOpaqueRequestForToken, Manager.deref, h]

/-- Filling the opaque request reads `d->r`: with a null `d->r` it fails. -/
theorem fillOpaqueRequestForAccess_null (x : Externals Req) (m : Manager Req)
    (h : m.r = RequestPtr.null) : fillOpaqueRequestForAccess x m = none := by
  simp [fillOpaqueRequestForAccess, Manager.deref, h]

/-- Filling a deleted opaque request fails. -/
theorem fillOpaqueRequestForToken_deleted (x : Externals Req) (m : Manager Req)
    (h : m.opaqueRequestDeleted = true) : fillOpaqueRequestForToken x m = none := by
  cases hr : m.r <;>
    simp [fillOpaqueRequestForToken, Manager.deref, Manager.onOpaqueRequest, h, hr]

/-- Filling a deleted opaque request fails. -/
theorem fillOpaqueRequestForAccess_deleted (x : Externals Req) (m : Manager Req)
    (h : m.opaqueRequestDeleted = true) : fillOpaqueRequestForAccess x m = none := by
  cases hr : m.r <;>
    simp [fillOpaqueRequestForAccess, Manager.deref, Manager.onOpaqueRequest, h, hr]

/-- With `d->r` present and the opaque request live, filling the opaque request
changes only the opaque request. -/
theorem fillOpaqueRequestForToken_some (x : Externals Req) (m : Manager Req)
    (h : m.r ≠ RequestPtr.null) (hd : m.opaqueRequestDeleted = false) :
    ∃ o, fillOpaqueRequestForToken x m = some { m with opaqueRequest := o } := by
  cases hr : m.r with
  | null => exact absurd hr h
  | object request =>
    simp [fillOpaqueRequestForToken, Manager.deref, Manager.onOpaqueRequest, hr, hd]
  | opaqueRequest =>
    simp [fillOpaqueRequestForToken, Manager.deref, Manager.onOpaqueRequest, hr, hd]

/-- With `d->r` present and the opaque request live, filling the opaque request
changes only the opaque request. -/
theorem fillOpaqueRequestForAccess_some (x : Externals Req) (m : Manager Req)
    (h : m.r ≠ RequestPtr.null) (hd : m.opaqueRequestDeleted = false) :
    ∃ o, fillOpaqueRequestForAccess x m = some { m with opaqueRequest := o } := by
  cases hr : m.r with
  | null => exact absurd hr h
  | object request =>
    simp [fillOpaqueRequestForAccess, Manager.deref, Manager.onOpaqueRequest, hr, hd]
  | opaqueRequest =>
    simp [fillOpaqueRequestForAccess, Manager.deref, Manager.onOpaqueRequest, hr, hd]

/-- A successful fill changes only the opaque request. -/
theorem fillOpaqueRequestForToken_eq_some (x : Externals Req) (m m' : Manager Req)
    (h : fillOpaqueRequestForToken x m = some m') : ∃ o, m' = { m with opaqueRequest := o } := by
  by_cases hr : m.r = RequestPtr.null
  · rw [fillOpaqueRequestForToken_null x m hr] at h; cases h
  · by_cases hd : m.opaqueRequestDeleted = true
    · rw [fillOpaqueRequestForToken_deleted x m hd] at h; cases h
    · obtain ⟨o, ho⟩ := fillOpaqueRequestForToken_some x m hr (by simpa using hd)
      rw [ho] at h
      exact ⟨o, (Option.some.inj h).symm⟩

/-- A successful fill changes only the opaque request. -/
theorem fillOpaqueRequestForAccess_eq_some (x : Externals Req) (m m' : Manager Req)
    (h : fillOpaqueRequestForAccess x m = some m') : ∃ o, m' = { m with opaqueRequest := o } := by
  by_cases hr : m.r = RequestPtr.null
  · rw [fillOpaqueRequestForAccess_null x m hr] at h; cases h
  · by_cases hd : m.opaqueRequestDeleted = true
    · rw [fillOpaqueRequestForAccess_deleted x m hd] at h; cases h
    · obtain ⟨o, ho⟩ := fillOpaqueRequestForAccess_some x m hr (by simpa using hd)
      rw [ho] at h
      exact ⟨o, (Option.some.inj h).symm⟩

/-- The reply slot on a failed reply: two signals are emitted, and the last error ends as
`RequestUnauthorized` whatever the transport error was. -/
theorem onRequestReplyReceived_failed (x : Externals Req) (m : Manager Req) (reply : QNetworkReply)
    (h : reply.error ≠ QNetworkError.NoError) :
    onRequestReplyReceived x m reply =
      some { m with error := KQOAuthError.RequestUnauthorized
                    emitted := m.emitted ++ [Signal.requestReady [], Signal.receivedToken [] []] } := by
  have he : errorOfNetworkError reply.error ≠ KQOAuthError.NoError := by
    cases hh : reply.error <;> simp_all [errorOfNetworkError]
  simp [onRequestReplyReceived, he, emitTokens, Manager.emit, QMultiMap.value]

/-- The reply slot on an error-free reply, the opaque request being live. -/
theorem onRequestReplyReceived_noError (x : Externals Req) (m : Manager Req)
    (reply : QNetworkReply) (h : reply.error = QNetworkError.NoError)
    (hd : m.opaqueRequestDeleted = false) :
    onRequestReplyReceived x m reply =
      match interpretResponse x
          { m with error := KQOAuthError.NoError
                   opaqueRequest := x.clearRequest m.opaqueRequest }
          (createRequestResponse reply.body) with
      | none => none
      | some m =>
        let m := m.emit (Signal.requestReady (createRequestResponse reply.body))
        if m.currentRequestType = RequestType.TemporaryCredentials
            ∨ m.currentRequestType = RequestType.AccessToken then
          some (emitTokens m (createRequestResponse reply.body))
        else some m := by
  simp [onRequestReplyReceived, h, errorOfNetworkError, Manager.onOpaqueRequest, hd]

/-- The reply slot on an error-free reply fails when the opaque request has
been deleted: it calls `clearRequest()` on it. -/
theorem onRequestReplyReceived_deleted (x : Externals Req) (m : Manager Req)
    (reply : QNetworkReply) (h : reply.error = QNetworkError.NoError)
    (hd : m.opaqueRequestDeleted = true) :
    onRequestReplyReceived x m reply = none := by
  simp [onRequestReplyReceived, h, errorOfNetworkError, Manager.onOpaqueRequest, hd]

/-- The interpretation of a reply with both tokens under the kind `TemporaryCredentials`. -/
theorem interpretResponse_temporary_ok (x : Externals Req) (m : Manager Req) (resp : QMultiMap)
    (hk : m.currentRequestType = RequestType.TemporaryCredentials) (hv : m.isVerified = false)
    (ht : resp.value oauthTokenKey ≠ [])
    (hs : resp.value oauthTokenSecretKey ≠ []) :
    interpretResponse x m resp =
      fillOpaqueRequestForToken x
        { m with hasTemporaryToken := true
                 requestToken := resp.value oauthTokenKey
                 requestTokenSecret := resp.value oauthTokenSecretKey } := by
  have ht' : (resp.value oauthTokenKey).isEmpty = false := by
    cases h : resp.value oauthTokenKey <;> simp_all
  have hs' : (resp.value oauthTokenSecretKey).isEmpty = false := by
    cases h : resp.value oauthTokenSecretKey <;> simp_all
  simp [interpretResponse, setSuccessfulRequestToken, hk, hv, ht, hs, ht', hs']

/-- The interpretation of a reply that lacks a token under the kind `TemporaryCredentials`. -/
theorem interpretResponse_temporary_fail (x : Externals Req) (m : Manager Req) (resp : QMultiMap)
    (hk : m.currentRequestType = RequestType.TemporaryCredentials) (hv : m.isVerified = false)
    (h : resp.value oauthTokenKey = [] ∨ resp.value oauthTokenSecretKey = []) :
    interpretResponse x m resp = some { m with hasTemporaryToken := false } := by
  rcases h with h | h <;>
    simp [interpretResponse, setSuccessfulRequestToken, setSuccessfulAuthorized, hk, hv, h]

/-- The interpretation of a reply with both tokens under the kind `AccessToken`. -/
theorem interpretResponse_access_ok (x : Externals Req) (m : Manager Req) (resp : QMultiMap)
    (hk : m.currentRequestType = RequestType.AccessToken) (hv : m.isVerified = false)
    (ht : resp.value oauthTokenKey ≠ [])
    (hs : resp.value oauthTokenSecretKey ≠ []) :
    interpretResponse x m resp =
      fillOpaqueRequestForAccess x
        { m with isAuthorized := true
                 requestToken := resp.value oauthTokenKey
                 requestTokenSecret := resp.value oauthTokenSecretKey } := by
  have ht' : (resp.value oauthTokenKey).isEmpty = false := by
    cases h : resp.value oauthTokenKey <;> simp_all
  have hs' : (resp.value oauthTokenSecretKey).isEmpty = false := by
    cases h : resp.value oauthTokenSecretKey <;> simp_all
  simp [interpretResponse, setSuccessfulRequestToken, setSuccessfulAuthorized, hk, hv, ht, hs,
    ht', hs']

/-- The interpretation of a reply that lacks a token under the kind `AccessToken`. -/
theorem interpretResponse_access_fail (x : Externals Req) (m : Manager Req) (resp : QMultiMap)
    (hk : m.currentRequestType = RequestType.AccessToken) (hv : m.isVerified = false)
    (h : resp.value oauthTokenKey = [] ∨ resp.value oauthTokenSecretKey = []) :
    interpretResponse x m resp = some { m with isAuthorized := false } := by
  rcases h with h | h <;>
    simp [interpretResponse, setSuccessfulRequestToken, setSuccessfulAuthorized, hk, hv, h]

/-- Under the kind `AuthorizedRequest` a reply is not interpreted. -/
theorem interpretResponse_authorizedRequest (x : Externals Req) (m : Manager Req)
    (resp : QMultiMap) (hk : m.currentRequestType = RequestType.AuthorizedRequest) :
    interpretResponse x m resp = some m := by
  simp [interpretResponse, setSuccessfulRequestToken, setSuccessfulAuthorized, hk]

/-- Interpreting a reply is a token step. -/
theorem interpretResponse_tokenStep (x : Externals Req) (m m' : Manager Req) (resp : QMultiMap)
    (h : interpretResponse x m resp = some m') : TokenStep m m' := by
  by_cases hg : (!m.isAuthorized || !m.isVerified) = true
  swap
  · simp [interpretResponse, hg] at h
    subst h
    simp [TokenStep]
  by_cases hne : resp.value oauthTokenKey ≠ [] ∧ resp.value oauthTokenSecretKey ≠ []
  · obtain ⟨ht, hs⟩ := hne
    have ht' : (resp.value oauthTokenKey).isEmpty = false := by
      cases h : resp.value oauthTokenKey <;> simp_all
    have hs' : (resp.value oauthTokenSecretKey).isEmpty = false := by
      cases h : resp.value oauthTokenSecretKey <;> simp_all
    cases hk : m.currentRequestType with
    | TemporaryCredentials =>
      simp [interpretResponse, hg, setSuccessfulRequestToken, hk, ht', hs'] at h
      obtain ⟨o, rfl⟩ := fillOpaqueRequestForToken_eq_some x _ _ h
      simp [TokenStep, ht, hs]
    | AccessToken =>
      simp [interpretResponse, hg, setSuccessfulRequestToken, setSuccessfulAuthorized, hk, ht', hs'] at h
      obtain ⟨o, rfl⟩ := fillOpaqueRequestForAccess_eq_some x _ _ h
      simp [TokenStep, ht, hs]
    | AuthorizedRequest =>
      rw [interpretResponse_authorizedRequest x m resp hk] at h
      cases h
      simp [TokenStep]
  · have he : ((resp.value oauthTokenKey).isEmpty = true) ∨
        ((resp.value oauthTokenSecretKey).isEmpty = true) := by
      by_contra hc
      apply hne
      constructor <;> intro e <;> apply hc <;> simp [e]
    cases hk : m.currentRequestType with
    | TemporaryCredentials =>
      rcases he with he | he <;>
      · simp [interpretResponse, hg, setSuccessfulRequestToken, setSuccessfulAuthorized, hk, he] at h
        subst h
        simp [TokenStep]
    | AccessToken =>
      rcases he with he | he <;>
      · simp [interpretResponse, hg, setSuccessfulRequestToken, setSuccessfulAuthorized, hk, he] at h
        subst h
        simp [TokenStep]
    | AuthorizedRequest =>
      rw [interpretResponse_authorizedRequest x m resp hk] at h
      cases h
      simp [TokenStep]

/-- The function `emitTokens` writes neither the tokens, nor the flags, nor the request kind. -/
theorem emitTokens_fields (m : Manager Req) (resp : QMultiMap) :
    (emitTokens m resp).isVerified = m.isVerified
    ∧ (emitTokens m resp).isAuthorized = m.isAuthorized
    ∧ (emitTokens m resp).hasTemporaryToken = m.hasTemporaryToken
    ∧ (emitTokens m resp).requestToken = m.requestToken
    ∧ (emitTokens m resp).requestTokenSecret = m.requestTokenSecret
    ∧ (emitTokens m resp).currentRequestType = m.currentRequestType := by
  unfold emitTokens
  simp only [Manager.emit]
  split_ifs <;> simp

/-- A run of the reply slot that returns is a token step. -/
theorem onRequestReplyReceived_tokenStep (x : Externals Req) (m m' : Manager Req)
    (reply : QNetworkReply) (h : onRequestReplyReceived x m reply = some m') : TokenStep m m' := by
  by_cases he : reply.error = QNetworkError.NoError
  · by_cases hd : m.opaqueRequestDeleted = true
    · rw [onRequestReplyReceived_deleted x m reply he hd] at h; cases h
    · rw [onRequestReplyReceived_noError x m reply he (by simpa using hd)] at h
      cases hi : interpretResponse x
          { m with error := KQOAuthError.NoError, opaqueRequest := x.clearRequest m.opaqueRequest }
          (createRequestResponse reply.body) with
      | none => simp [hi] at h
      | some m1 =>
        have hstep := interpretResponse_tokenStep x _ _ _ hi
        simp only [hi] at h
        have key : m'.isVerified = m1.isVerified ∧ m'.isAuthorized = m1.isAuthorized
            ∧ m'.hasTemporaryToken = m1.hasTemporaryToken ∧ m'.requestToken = m1.requestToken
            ∧ m'.requestTokenSecret = m1.requestTokenSecret := by
          split_ifs at h <;> cases h <;> simp [emitTokens_fields, Manager.emit]
        obtain ⟨k1, k2, k3, k4, k5⟩ := key
        simp only [TokenStep] at hstep ⊢
        rw [k1, k2, k3, k4, k5]
        exact hstep
  · rw [onRequestReplyReceived_failed x m reply he] at h
    cases h
    simp [TokenStep]

/-- Every call that returns is a token step. -/
theorem perform_tokenStep (x : Externals Req) (m m' : Manager Req) (call : Call Req)
    (h : perform x m call = some m') : TokenStep m m' := by
  cases call with
  | executeRequest request =>
    simp only [perform] at h
    have hf := executeRequest_fields x m m' _ h
    simp [TokenStep, hf]
  | onRequestReplyReceived reply =>
    simp only [perform] at h
    split_ifs at h
    exact onRequestReplyReceived_tokenStep x m m' reply h
  | setHandleUserAuthentication set =>
    simp only [perform, Option.some.injEq] at h
    subst h
    simp [TokenStep, setHandleUserAuthentication]
  | getUserAuthorization u =>
    simp only [perform, Option.some.injEq] at h
    subst h
    simp [TokenStep, getUserAuthorization_fields]
  | onVerificationReceived response =>
    simp only [perform, Option.some.injEq] at h
    subst h
    simp [TokenStep, onVerificationReceived]
  | sendAuthorizedRequest u ps =>
    simp only [perform] at h
    have hf := sendAuthorizedRequest_fields x m m' u ps h
    simp [TokenStep, hf]

/-- A property that every call preserves holds after every run. -/
theorem run_preserves (x : Externals Req) (P : Manager Req → Prop)
    (hstep : ∀ m m' call, P m → perform x m call = some m' → P m')
    (calls : List (Call Req)) :
    ∀ m m', P m → run x m calls = some m' → P m' := by
  induction calls with
  | nil =>
    intro m m' hm h
    simp only [run, Option.some.injEq] at h
    exact h ▸ hm
  | cons call calls ih =>
    intro m m' hm h
    simp only [run] at h
    cases hp : perform x m call with
    | none => simp [hp] at h
    | some m1 =>
      simp only [hp] at h
      exact ih m1 m' (hstep m m1 call hm hp) h

/-- The flag `isVerified` is false in every reachable state. -/
theorem reachable_isVerified (x : Externals Req) (m : Manager Req) (h : Reachable x m) :
    m.isVerified = false := by
  obtain ⟨t, b, calls, hrun⟩ := h
  refine run_preserves x (fun m => m.isVerified = false) ?_ calls _ m rfl hrun
  intro m m' call hm hp
  have := (perform_tokenStep x m m' call hp).1
  simp only [this, hm]

/-- A token step preserves the invariant on the tokens and the flags. -/
theorem tokenStep_invariant (m m' : Manager Req) (hstep : TokenStep m m')
    (h : (m.requestToken = [] ↔ m.requestTokenSecret = [])
      ∧ (m.hasTemporaryToken = true → m.requestToken ≠ [] ∧ m.requestTokenSecret ≠ [])
      ∧ (m.isAuthorized = true → m.requestToken ≠ [] ∧ m.requestTokenSecret ≠ [])) :
    (m'.requestToken = [] ↔ m'.requestTokenSecret = [])
      ∧ (m'.hasTemporaryToken = true → m'.requestToken ≠ [] ∧ m'.requestTokenSecret ≠ [])
      ∧ (m'.isAuthorized = true → m'.requestToken ≠ [] ∧ m'.requestTokenSecret ≠ []) := by
  obtain ⟨_, hs | ⟨e1, e2, e3, e4⟩⟩ := hstep
  · exact ⟨⟨fun e => absurd e hs.1, fun e => absurd e hs.2⟩, fun _ => hs, fun _ => hs⟩
  · rw [e1, e2]
    refine ⟨h.1, ?_, ?_⟩
    · intro ht
      rcases e3 with e3 | e3
      · exact h.2.1 (e3 ▸ ht)
      · rw [e3] at ht; cases ht
    · intro ht
      rcases e4 with e4 | e4
      · exact h.2.2 (e4 ▸ ht)
      · rw [e4] at ht; cases ht

/-- C8. In every state reachable from a freshly constructed manager whose
member `hasTemporaryToken` starts out false, by any sequence of calls of
`executeRequest`, reply slots, `setHandleUserAuthentication`,
`getUserAuthorization`, verification slots and `sendAuthorizedRequest`: the
stored token is empty exactly when the stored secret is empty, and each of
`hasTemporaryToken()` and `isAuthorized()` implies that both are non-empty. -/
theorem tokens_set_together (x : Externals Req) (m : Manager Req) (h : ReachableClean x m) :
    (m.requestToken = [] ↔ m.requestTokenSecret = [])
      ∧ (hasTemporaryToken m = true → m.requestToken ≠ [] ∧ m.requestTokenSecret ≠ [])
      ∧ (isAuthorized m = true → m.requestToken ≠ [] ∧ m.requestTokenSecret ≠ []) := by
  obtain ⟨t, calls, hrun⟩ := h
  refine run_preserves x
    (fun m => (m.requestToken = [] ↔ m.requestTokenSecret = [])
      ∧ (m.hasTemporaryToken = true → m.requestToken ≠ [] ∧ m.requestTokenSecret ≠ [])
      ∧ (m.isAuthorized = true → m.requestToken ≠ [] ∧ m.requestTokenSecret ≠ []))
    ?_ calls _ m ?_ hrun
  · intro m m' call hm hp
    exact tokenStep_invariant m m' (perform_tokenStep x m m' call hp) hm
  · simp [newManager]

/-- The function `emitTokens` on a response that lacks a token. -/
theorem emitTokens_lacking (m : Manager Req) (resp : QMultiMap)
    (h : resp.value oauthTokenKey = [] ∨ resp.value oauthTokenSecretKey = []) :
    emitTokens m resp =
      { m with error := KQOAuthError.RequestUnauthorized
               emitted := m.emitted ++
                 [Signal.receivedToken (resp.value oauthTokenKey) (resp.value oauthTokenSecretKey)] } := by
  rcases h with h | h <;> simp [emitTokens, Manager.emit, h]

/-- With the opaque request live, an error-free reply that lacks a token or a
secret, handled in a reachable state, leaves `hasTemporaryToken()` false under
the kind `TemporaryCredentials` and `isAuthorized()` false under the kind
`AccessToken`, with the last error `RequestUnauthorized`. -/
theorem lacking_reply_unauthorized (x : Externals Req) (m : Manager Req)
    (reply : QNetworkReply) (hreach : Reachable x m)
    (hd : m.opaqueRequestDeleted = false)
    (herr : reply.error = QNetworkError.NoError)
    (hlack : (createRequestResponse reply.body).value oauthTokenKey = []
      ∨ (createRequestResponse reply.body).value oauthTokenSecretKey = []) :
    (m.currentRequestType = RequestType.TemporaryCredentials →
      ∃ m', onRequestReplyReceived x m reply = some m'
        ∧ hasTemporaryToken m' = false ∧ lastError m' = KQOAuthError.RequestUnauthorized)
    ∧ (m.currentRequestType = RequestType.AccessToken →
      ∃ m', onRequestReplyReceived x m reply = some m'
        ∧ isAuthorized m' = false ∧ lastError m' = KQOAuthError.RequestUnauthorized) := by
  have hv := reachable_isVerified x m hreach
  constructor
  · intro hk
    rw [onRequestReplyReceived_noError x m reply herr hd,
      interpretResponse_temporary_fail x { m with error := KQOAuthError.NoError, opaqueRequest := x.clearRequest m.opaqueRequest }
        _ hk hv hlack]
    simp [Manager.emit, hk, emitTokens_lacking _ _ hlack, hasTemporaryToken, lastError]
  · intro hk
    rw [onRequestReplyReceived_noError x m reply herr hd,
      interpretResponse_access_fail x { m with error := KQOAuthError.NoError, opaqueRequest := x.clearRequest m.opaqueRequest }
        _ hk hv hlack]
    simp [Manager.emit, hk, emitTokens_lacking _ _ hlack, isAuthorized, lastError]

/-- C3, at the failing input. The manager is authorized through an access-token
request and its reply, `sendAuthorizedRequest` makes the opaque request the cached
request, and `executeRequest` of a temporary-credentials request then deletes
the cached request, that is the opaque request. The state is reachable, the
reply slot is connected and the request kind is `TemporaryCredentials`; on an
error-free reply with a token but no secret the reply slot calls
`clearRequest()` on the deleted opaque request and does not return. -/
theorem lacking_reply_after_opaque_deleted :
    Reachable plainExternals (opaqueDeletedState temporaryCredentialsRequest)
      ∧ 0 < (opaqueDeletedState temporaryCredentialsRequest).finishedConnections
      ∧ (opaqueDeletedState temporaryCredentialsRequest).currentRequestType
          = RequestType.TemporaryCredentials
      ∧ (opaqueDeletedState temporaryCredentialsRequest).opaqueRequestDeleted = true
      ∧ tokenOnlyReply.error = QNetworkError.NoError
      ∧ (createRequestResponse tokenOnlyReply.body).value oauthTokenSecretKey = []
      ∧ onRequestReplyReceived plainExternals
          (opaqueDeletedState temporaryCredentialsRequest) tokenOnlyReply = none := by
  refine ⟨⟨RequestType.AuthorizedRequest, false,
    [Call.executeRequest (some accessTokenRequest), Call.onRequestReplyReceived tokenReply,
     Call.sendAuthorizedRequest resourceUrl [("status".toList, "hello".toList)],
     Call.executeRequest (some temporaryCredentialsRequest)], by decide⟩,
    ?_, ?_, ?_, ?_, ?_, ?_⟩ <;> decide

/-- With the opaque request live, a reply handled under the kind
`AuthorizedRequest`, error-free or failed, leaves `isAuthorized()`, the stored
token and the stored secret as they were. -/
theorem authorizedRequest_reply_keeps_access_of_live (x : Externals Req) (m : Manager Req)
    (reply : QNetworkReply) (hk : m.currentRequestType = RequestType.AuthorizedRequest)
    (hd : m.opaqueRequestDeleted = false) :
    ∃ m', onRequestReplyReceived x m reply = some m'
      ∧ isAuthorized m' = isAuthorized m
      ∧ m'.requestToken = m.requestToken
      ∧ m'.requestTokenSecret = m.requestTokenSecret := by
  by_cases he : reply.error = QNetworkError.NoError
  · rw [onRequestReplyReceived_noError x m reply he hd,
      interpretResponse_authorizedRequest x { m with error := KQOAuthError.NoError, opaqueRequest := x.clearRequest m.opaqueRequest }
        _ hk]
    simp [Manager.emit, hk, isAuthorized]
  · rw [onRequestReplyReceived_failed x m reply he]
    simp [isAuthorized]

/-- C7, at the failing input. The manager is authorized with the token `abc`
and the secret `xyz`, `sendAuthorizedRequest` makes the opaque request the cached
request, and `executeRequest` of an authorized request of the caller then
deletes it. The state is reachable, the reply slot is connected and the request
kind is `AuthorizedRequest`; on an error-free reply the reply slot calls
`clearRequest()` on the deleted opaque request and does not return. -/
theorem authorizedRequest_reply_after_opaque_deleted :
    Reachable plainExternals (opaqueDeletedState resourceRequest)
      ∧ 0 < (opaqueDeletedState resourceRequest).finishedConnections
      ∧ (opaqueDeletedState resourceRequest).currentRequestType = RequestType.AuthorizedRequest
      ∧ isAuthorized (opaqueDeletedState resourceRequest) = true
      ∧ (opaqueDeletedState resourceRequest).requestToken = "abc".toList
      ∧ (opaqueDeletedState resourceRequest).requestTokenSecret = "xyz".toList
      ∧ (opaqueDeletedState resourceRequest).opaqueRequestDeleted = true
      ∧ tokenReply.error = QNetworkError.NoError
      ∧ onRequestReplyReceived plainExternals (opaqueDeletedState resourceRequest) tokenReply
          = none := by
  refine ⟨⟨RequestType.AuthorizedRequest, false,
    [Call.executeRequest (some accessTokenRequest), Call.onRequestReplyReceived tokenReply,
     Call.sendAuthorizedRequest resourceUrl [("status".toList, "hello".toList)],
     Call.executeRequest (some resourceRequest)], by decide⟩,
    ?_, ?_, ?_, ?_, ?_, ?_, ?_, ?_⟩ <;> decide

/-- C6. For every endpoint and every parameter list, `sendAuthorizedRequest`
called while `isAuthorized()` is false returns, having changed nothing but the
last error, which becomes `RequestUnauthorized`: in particular no post is made
and the opaque request is not touched. -/
theorem sendAuthorizedRequest_unauthorized (x : Externals Req) (m : Manager Req)
    (requestEndpoint : QUrl) (requestParameters : KQOAuthParameters)
    (h : isAuthorized m = false) :
    ∃ m', sendAuthorizedRequest x m requestEndpoint requestParameters = some m'
      ∧ m' = { m with error := KQOAuthError.RequestUnauthorized }
      ∧ lastError m' = KQOAuthError.RequestUnauthorized
      ∧ m'.posted = m.posted
      ∧ m'.opaqueRequest = m.opaqueRequest
      ∧ m'.opaqueRequestDeleted = m.opaqueRequestDeleted := by
  simp only [isAuthorized] at h
  simp [sendAuthorizedRequest, h, lastError]

/-- C6, an instance: a fresh manager is not authorized. -/
theorem sendAuthorizedRequest_unauthorized_witness :
    isAuthorized freshManager = false
      ∧ sendAuthorizedRequest plainExternals freshManager resourceUrl []
        = some { freshManager with error := KQOAuthError.RequestUnauthorized } := by
  obtain ⟨m', h1, h2, _⟩ :=
    sendAuthorizedRequest_unauthorized plainExternals freshManager resourceUrl [] rfl
  exact ⟨rfl, by rw [h1, h2]⟩

/-- The effects of the checked part of `executeRequest` on a request that
passes the checks. -/
theorem executeChecked_accepted (x : Externals Req) (m : Manager Req)
    (request : RequestPtr Req) (req : Req)
    (hu : (x.requestEndpoint req).isValid = true) (hvalid : x.isValid req = true) :
    (executeChecked x m request req).posted = m.posted ++ [postOf x m req]
      ∧ (executeChecked x m request req).error = m.error
      ∧ (executeChecked x m request req).currentRequestType = x.requestType req
      ∧ (executeChecked x m request req).finishedConnections = m.finishedConnections + 1 := by
  simp only [executeChecked, hu, hvalid, postOf, requestAsSent]
  cases request <;> simp [Manager.store, setupCallbackServer] <;> split_ifs <;> simp

/-- The function `executeRequest` on a null pointer: the cached request is
deleted, the null pointer cached and the error set. -/
theorem executeRequest_null (x : Externals Req) (m m1 : Manager Req)
    (h : m.deleteCached = some m1) :
    executeRequest x m RequestPtr.null
      = some { m1 with r := RequestPtr.null, error := KQOAuthError.RequestError } := by
  simp [executeRequest, h, RequestPtr.isNull]

/-- The function `executeRequest` on a request object of the caller: the cached
request is deleted, the pointer cached and the checks made. -/
theorem executeRequest_object (x : Externals Req) (m m1 : Manager Req) (req : Req)
    (h : m.deleteCached = some m1) :
    executeRequest x m (RequestPtr.object req)
      = some (executeChecked x { m1 with r := RequestPtr.object req }
          (RequestPtr.object req) req) := by
  simp [executeRequest, h, RequestPtr.isNull, Manager.deref]

/-- The function `executeRequest` on the pointer it has cached: the opaque
request is deleted and then read, which fails. -/
theorem executeRequest_cached_opaqueRequest (x : Externals Req) (m : Manager Req)
    (h : m.r = RequestPtr.opaqueRequest) :
    executeRequest x m RequestPtr.opaqueRequest = none := by
  by_cases hd : m.opaqueRequestDeleted = true
  · simp [executeRequest, Manager.deleteCached, h, hd]
  · simp [executeRequest, Manager.deleteCached, h, hd, RequestPtr.isNull, Manager.deref]

/-- For a request object passed to the checked part of `executeRequest`: an
invalid endpoint gives `RequestEndpointError`, whether or not the request is
valid; otherwise a request that fails `isValid()` gives
`RequestValidationError`; in both cases only the last error changes. A request
that passes the checks adds exactly one post, to the request's endpoint. -/
theorem executeChecked_rejects_or_posts (x : Externals Req) (m : Manager Req)
    (request : RequestPtr Req) (req : Req) :
    ((x.requestEndpoint req).isValid = false →
      executeChecked x m request req = { m with error := KQOAuthError.RequestEndpointError })
    ∧ ((x.requestEndpoint req).isValid = true → x.isValid req = false →
      executeChecked x m request req = { m with error := KQOAuthError.RequestValidationError })
    ∧ ((x.requestEndpoint req).isValid = true → x.isValid req = true →
      ∃ post, (executeChecked x m request req).posted = m.posted ++ [post]
        ∧ post.url = x.requestEndpoint req) := by
  refine ⟨?_, ?_, ?_⟩
  · intro hu
    simp [executeChecked, hu]
  · intro hu hvalid
    simp [executeChecked, hu, hvalid]
  · intro hu hvalid
    exact ⟨postOf x m req, (executeChecked_accepted x m request req hu hvalid).1, rfl⟩

/-- C5, at the failing input. In the authorized state, after one
`sendAuthorizedRequest`, the state is reachable, the cached request `d->r` is
the opaque request, which is live and passes the three checks (it is not null,
its endpoint is valid and it is valid). A second `sendAuthorizedRequest` passes
this descriptor to `executeRequest`, which deletes the cached request, that is
the descriptor itself, and then reads it: the call does not return, and no post
is made. -/
theorem executeRequest_deletes_its_argument :
    Reachable plainExternals authorizedRequestSentState
      ∧ authorizedRequestSentState.r = RequestPtr.opaqueRequest
      ∧ authorizedRequestSentState.opaqueRequestDeleted = false
      ∧ (plainExternals.requestEndpoint authorizedRequestSentState.opaqueRequest).isValid = true
      ∧ plainExternals.isValid authorizedRequestSentState.opaqueRequest = true
      ∧ executeRequest plainExternals authorizedRequestSentState RequestPtr.opaqueRequest = none
      ∧ sendAuthorizedRequest plainExternals authorizedRequestSentState resourceUrl
          [("status".toList, "again".toList)] = none := by
  refine ⟨⟨RequestType.AuthorizedRequest, false,
    [Call.executeRequest (some accessTokenRequest), Call.onRequestReplyReceived tokenReply,
     Call.sendAuthorizedRequest resourceUrl [("status".toList, "hello".toList)]], by decide⟩,
    ?_, ?_, ?_, ?_, ?_, ?_⟩ <;> decide

/-- With a cached request present and the opaque request live, an error-free reply with a token and a
secret, handled while the request kind is `TemporaryCredentials`, sets
`hasTemporaryToken()` and stores the decoded token and secret. -/
theorem temporaryCredentials_reply_stores_token (x : Externals Req) (m : Manager Req)
    (reply : QNetworkReply) (hreach : Reachable x m) (hr : m.r ≠ RequestPtr.null)
    (hd : m.opaqueRequestDeleted = false)
    (herr : reply.error = QNetworkError.NoError)
    (hk : m.currentRequestType = RequestType.TemporaryCredentials)
    (ht : (createRequestResponse reply.body).value oauthTokenKey ≠ [])
    (hs : (createRequestResponse reply.body).value oauthTokenSecretKey ≠ []) :
    ∃ m', onRequestReplyReceived x m reply = some m'
      ∧ hasTemporaryToken m' = true
      ∧ m'.requestToken = (createRequestResponse reply.body).value oauthTokenKey
      ∧ m'.requestTokenSecret = (createRequestResponse reply.body).value oauthTokenSecretKey := by
  have hv := reachable_isVerified x m hreach
  rw [onRequestReplyReceived_noError x m reply herr hd,
    interpretResponse_temporary_ok x
      { m with error := KQOAuthError.NoError, opaqueRequest := x.clearRequest m.opaqueRequest }
      _ hk hv ht hs]
  obtain ⟨o, ho⟩ := fillOpaqueRequestForToken_some x
    { m with error := KQOAuthError.NoError, opaqueRequest := x.clearRequest m.opaqueRequest
             hasTemporaryToken := true
             requestToken := (createRequestResponse reply.body).value oauthTokenKey
             requestTokenSecret := (createRequestResponse reply.body).value oauthTokenSecretKey }
    hr hd
  rw [ho]
  simp [Manager.emit, hk, emitTokens_fields, hasTemporaryToken]

/-- With a cached request present and the opaque request live, an error-free reply with a token and a
secret, handled while the request kind is `AccessToken`, sets `isAuthorized()`
and stores the decoded token and secret. -/
theorem accessToken_reply_stores_token (x : Externals Req) (m : Manager Req)
    (reply : QNetworkReply) (hreach : Reachable x m) (hr : m.r ≠ RequestPtr.null)
    (hd : m.opaqueRequestDeleted = false)
    (herr : reply.error = QNetworkError.NoError)
    (hk : m.currentRequestType = RequestType.AccessToken)
    (ht : (createRequestResponse reply.body).value oauthTokenKey ≠ [])
    (hs : (createRequestResponse reply.body).value oauthTokenSecretKey ≠ []) :
    ∃ m', onRequestReplyReceived x m reply = some m'
      ∧ isAuthorized m' = true
      ∧ m'.requestToken = (createRequestResponse reply.body).value oauthTokenKey
      ∧ m'.requestTokenSecret = (createRequestResponse reply.body).value oauthTokenSecretKey := by
  have hv := reachable_isVerified x m hreach
  rw [onRequestReplyReceived_noError x m reply herr hd,
    interpretResponse_access_ok x
      { m with error := KQOAuthError.NoError, opaqueRequest := x.clearRequest m.opaqueRequest }
      _ hk hv ht hs]
  obtain ⟨o, ho⟩ := fillOpaqueRequestForAccess_some x
    { m with error := KQOAuthError.NoError, opaqueRequest := x.clearRequest m.opaqueRequest
             isAuthorized := true
             requestToken := (createRequestResponse reply.body).value oauthTokenKey
             requestTokenSecret := (createRequestResponse reply.body).value oauthTokenSecretKey }
    hr hd
  rw [ho]
  simp [Manager.emit, hk, emitTokens_fields, isAuthorized]

/-- C1, at the failing input. After an accepted `executeRequest` of a
temporary-credentials request followed by `executeRequest(0)`, the state is
reachable, the reply slot is connected and the current request kind is
`TemporaryCredentials`; on the error-free reply
`oauth_token=abc&oauth_token_secret=xyz` the reply slot dereferences the null
`d->r` and does not return. -/
theorem temporaryCredentials_reply_after_null_request :
    Reachable plainExternals (dispatchedThenNull temporaryCredentialsRequest)
      ∧ 0 < (dispatchedThenNull temporaryCredentialsRequest).finishedConnections
      ∧ (dispatchedThenNull temporaryCredentialsRequest).currentRequestType
          = RequestType.TemporaryCredentials
      ∧ tokenReply.error = QNetworkError.NoError
      ∧ (createRequestResponse tokenReply.body).value oauthTokenKey = "abc".toList
      ∧ (createRequestResponse tokenReply.body).value oauthTokenSecretKey = "xyz".toList
      ∧ onRequestReplyReceived plainExternals
          (dispatchedThenNull temporaryCredentialsRequest) tokenReply = none := by
  refine ⟨⟨RequestType.AuthorizedRequest, false,
    [Call.executeRequest (some temporaryCredentialsRequest), Call.executeRequest none], by decide⟩,
    ?_, ?_, ?_, ?_, ?_, ?_⟩ <;> decide

/-- C2, at the failing input. After an accepted `executeRequest` of an
access-token request followed by `executeRequest(0)`, the state is reachable,
the reply slot is connected and the current request kind is `AccessToken`; on
the error-free reply `oauth_token=abc&oauth_token_secret=xyz` the reply slot
dereferences the null `d->r` and does not return. -/
theorem accessToken_reply_after_null_request :
    Reachable plainExternals (dispatchedThenNull accessTokenRequest)
      ∧ 0 < (dispatchedThenNull accessTokenRequest).finishedConnections
      ∧ (dispatchedThenNull accessTokenRequest).currentRequestType = RequestType.AccessToken
      ∧ tokenReply.error = QNetworkError.NoError
      ∧ (createRequestResponse tokenReply.body).value oauthTokenKey = "abc".toList
      ∧ (createRequestResponse tokenReply.body).value oauthTokenSecretKey = "xyz".toList
      ∧ onRequestReplyReceived plainExternals
          (dispatchedThenNull accessTokenRequest) tokenReply = none := by
  refine ⟨⟨RequestType.AuthorizedRequest, false,
    [Call.executeRequest (some accessTokenRequest), Call.executeRequest none], by decide⟩,
    ?_, ?_, ?_, ?_, ?_, ?_⟩ <;> decide

/-- C4, at the failing input. A reply that failed with a refused connection is
classified as `NetworkError`, yet after the reply slot has handled it in the
state that follows an accepted temporary-credentials request, `lastError()` is
`RequestUnauthorized`. -/
theorem connection_refused_reported_unauthorized :
    errorOfNetworkError connectionRefusedReply.error = KQOAuthError.NetworkError
      ∧ (onRequestReplyReceived plainExternals (dispatched temporaryCredentialsRequest)
          connectionRefusedReply).map lastError = some KQOAuthError.RequestUnauthorized := by
  constructor <;> decide

/-- C9, at the failing input. A temporary-credentials request is accepted and
its reply finishes: one `requestReady` is emitted. Then an access-token request
is accepted and its reply finishes: the reply slot runs twice, two more
`requestReady` signals are emitted, and the second run, which finds the reply's
data already read, clears `isAuthorized()`. -/
theorem second_completion_handled_twice :
    (finished plainExternals (dispatched temporaryCredentialsRequest) tokenReply).map
        (fun m => countRequestReady m.emitted) = some 1
      ∧ ((finished plainExternals (dispatched temporaryCredentialsRequest) tokenReply).bind
          (fun m => (executeRequest plainExternals m (RequestPtr.object accessTokenRequest)).bind
            (fun m => finished plainExternals m tokenReply))).map
        (fun m => (countRequestReady m.emitted, isAuthorized m)) = some (3, false) := by
  constructor <;> decide

/-- C8, an instance: the state after an accepted temporary-credentials request
and its reply `oauth_token=abc&oauth_token_secret=xyz`. -/
theorem tokens_set_together_witness :
    ∃ m, run plainExternals freshManager
          [Call.executeRequest (some temporaryCredentialsRequest),
           Call.onRequestReplyReceived tokenReply] = some m
      ∧ hasTemporaryToken m = true
      ∧ m.requestToken ≠ [] ∧ m.requestTokenSecret ≠ [] := by
  have hsome : (run plainExternals freshManager
      [Call.executeRequest (some temporaryCredentialsRequest),
       Call.onRequestReplyReceived tokenReply]).isSome = true := by decide
  obtain ⟨m, hm⟩ := Option.isSome_iff_exists.mp hsome
  have hflag : (run plainExternals freshManager
      [Call.executeRequest (some temporaryCredentialsRequest),
       Call.onRequestReplyReceived tokenReply]).map hasTemporaryToken = some true := by decide
  rw [hm] at hflag
  have hT : hasTemporaryToken m = true := by simpa using hflag
  exact ⟨m, hm, hT, (tokens_set_together plainExternals m ⟨_, _, hm⟩).2.1 hT⟩

/-! ## Theorems: signals, authorization and the cached request -/

/-- The function `setSuccessfulRequestToken` writes neither the log of signals,
nor the request kind, nor the cached pointer, nor the flag of the opaque
request. -/
theorem setSuccessfulRequestToken_frame (m : Manager Req) (resp : QMultiMap) :
    (setSuccessfulRequestToken m resp).2.emitted = m.emitted
      ∧ (setSuccessfulRequestToken m resp).2.currentRequestType = m.currentRequestType
      ∧ (setSuccessfulRequestToken m resp).2.r = m.r
      ∧ (setSuccessfulRequestToken m resp).2.opaqueRequestDeleted = m.opaqueRequestDeleted := by
  unfold setSuccessfulRequestToken
  by_cases hk : m.currentRequestType = RequestType.TemporaryCredentials
  · by_cases hb : (!(resp.value oauthTokenKey).isEmpty
        && !(resp.value oauthTokenSecretKey).isEmpty) = true
    · simp [hk, hb]
    · simp [hk, hb]
  · simp [hk]

/-- The function `setSuccessfulAuthorized` writes neither the log of signals,
nor the request kind, nor the cached pointer, nor the flag of the opaque
request. -/
theorem setSuccessfulAuthorized_frame (m : Manager Req) (resp : QMultiMap) :
    (setSuccessfulAuthorized m resp).2.emitted = m.emitted
      ∧ (setSuccessfulAuthorized m resp).2.currentRequestType = m.currentRequestType
      ∧ (setSuccessfulAuthorized m resp).2.r = m.r
      ∧ (setSuccessfulAuthorized m resp).2.opaqueRequestDeleted = m.opaqueRequestDeleted := by
  unfold setSuccessfulAuthorized
  by_cases hk : m.currentRequestType = RequestType.AccessToken
  · by_cases hb : (!(resp.value oauthTokenKey).isEmpty
        && !(resp.value oauthTokenSecretKey).isEmpty) = true
    · simp [hk, hb]
    · simp [hk, hb]
  · simp [hk]

/-- Interpreting a reply writes neither the log of signals, nor the request
kind, nor the cached pointer. -/
theorem interpretResponse_frame (x : Externals Req) (m m' : Manager Req) (resp : QMultiMap)
    (h : interpretResponse x m resp = some m') :
    m'.emitted = m.emitted ∧ m'.currentRequestType = m.currentRequestType ∧ m'.r = m.r := by
  have h1 := setSuccessfulRequestToken_frame m resp
  have h2 := setSuccessfulAuthorized_frame (setSuccessfulRequestToken m resp).2 resp
  simp only [interpretResponse] at h
  split_ifs at h
  · obtain ⟨o, rfl⟩ := fillOpaqueRequestForToken_eq_some x _ _ h
    exact ⟨h1.1, h1.2.1, h1.2.2.1⟩
  · obtain ⟨o, rfl⟩ := fillOpaqueRequestForAccess_eq_some x _ _ h
    exact ⟨h2.1.trans h1.1, h2.2.1.trans h1.2.1, h2.2.2.1.trans h1.2.2.1⟩
  · cases h
    exact ⟨h2.1.trans h1.1, h2.2.1.trans h1.2.1, h2.2.2.1.trans h1.2.2.1⟩
  · cases h
    exact ⟨rfl, rfl, rfl⟩

/-- With a cached request present and the opaque request live, interpreting a
reply succeeds. -/
theorem interpretResponse_isSome (x : Externals Req) (m : Manager Req) (resp : QMultiMap)
    (hr : m.r ≠ RequestPtr.null) (hd : m.opaqueRequestDeleted = false) :
    ∃ m', interpretResponse x m resp = some m' := by
  have h1 := setSuccessfulRequestToken_frame m resp
  have h2 := setSuccessfulAuthorized_frame (setSuccessfulRequestToken m resp).2 resp
  simp only [interpretResponse]
  split_ifs
  · obtain ⟨o, ho⟩ := fillOpaqueRequestForToken_some x (setSuccessfulRequestToken m resp).2
      (by rw [h1.2.2.1]; exact hr) (by rw [h1.2.2.2]; exact hd)
    exact ⟨_, ho⟩
  · obtain ⟨o, ho⟩ := fillOpaqueRequestForAccess_some x
      (setSuccessfulAuthorized (setSuccessfulRequestToken m resp).2 resp).2
      (by rw [h2.2.2.1, h1.2.2.1]; exact hr) (by rw [h2.2.2.2, h1.2.2.2]; exact hd)
    exact ⟨_, ho⟩
  · exact ⟨_, rfl⟩
  · exact ⟨_, rfl⟩

/-- With a cached request present and the opaque request live, the reply slot
on an error-free reply returns, having emitted `requestReady` with the decoded
map and then, under the kinds `TemporaryCredentials` and `AccessToken` only,
`receivedToken` with the map's values for the two token keys. -/
theorem onRequestReplyReceived_signals (x : Externals Req) (m : Manager Req)
    (reply : QNetworkReply) (herr : reply.error = QNetworkError.NoError)
    (hr : m.r ≠ RequestPtr.null) (hd : m.opaqueRequestDeleted = false) :
    ∃ m', onRequestReplyReceived x m reply = some m'
      ∧ m'.emitted = m.emitted
          ++ signalsOfReply m.currentRequestType (createRequestResponse reply.body) := by
  obtain ⟨m1, h1⟩ := interpretResponse_isSome x
    { m with error := KQOAuthError.NoError, opaqueRequest := x.clearRequest m.opaqueRequest }
    (createRequestResponse reply.body) hr hd
  obtain ⟨he, hk, _⟩ := interpretResponse_frame x _ _ _ h1
  simp only at he hk
  rw [onRequestReplyReceived_noError x m reply herr hd, h1]
  simp only [Manager.emit, hk, signalsOfReply]
  split_ifs with hkind
  · refine ⟨_, rfl, ?_⟩
    simp [emitTokens, Manager.emit, he]
    split_ifs <;> simp
  · exact ⟨_, rfl, by simp [he]⟩

/-- C13, at the failing input. After an accepted `executeRequest` of a
temporary-credentials request followed by `executeRequest(0)`, no signal has been
emitted; the error-free reply `oauth_token=abc&oauth_token_secret=xyz` should
make the reply slot emit `requestReady` and then `receivedToken`, but the slot
dereferences the null `d->r` before it emits anything and does not return, for
one run of the slot as for the emission of `finished`. -/
theorem reply_after_null_request_emits_nothing :
    (dispatchedThenNull temporaryCredentialsRequest).emitted = []
      ∧ signalsOfReply (dispatchedThenNull temporaryCredentialsRequest).currentRequestType
          (createRequestResponse tokenReply.body)
        = [Signal.requestReady [("oauth_token".toList, "abc".toList),
              ("oauth_token_secret".toList, "xyz".toList)],
            Signal.receivedToken "abc".toList "xyz".toList]
      ∧ run plainExternals freshManager
          [Call.executeRequest (some temporaryCredentialsRequest), Call.executeRequest none,
           Call.onRequestReplyReceived tokenReply] = none
      ∧ finished plainExternals (dispatchedThenNull temporaryCredentialsRequest) tokenReply
          = none := by
  refine ⟨?_, ?_, ?_, ?_⟩ <;> decide

/-- C14. For every state and every failed reply, the reply slot returns, having
emitted exactly `requestReady` with the empty map and then `receivedToken` with
two empty strings; the stored token, the stored secret and the three flags are
unchanged; and the result is the same whatever the body of the reply is. -/
theorem failed_reply_signals (x : Externals Req) (m : Manager Req) (reply : QNetworkReply)
    (h : reply.error ≠ QNetworkError.NoError) :
    ∃ m', onRequestReplyReceived x m reply = some m'
      ∧ m'.emitted = m.emitted ++ [Signal.requestReady [], Signal.receivedToken [] []]
      ∧ m'.requestToken = m.requestToken
      ∧ m'.requestTokenSecret = m.requestTokenSecret
      ∧ hasTemporaryToken m' = hasTemporaryToken m
      ∧ isVerified m' = isVerified m
      ∧ isAuthorized m' = isAuthorized m
      ∧ ∀ body : QByteArray,
          onRequestReplyReceived x m { reply with body := body } = some m' := by
  refine ⟨_, onRequestReplyReceived_failed x m reply h, rfl, rfl, rfl, rfl, rfl, rfl, ?_⟩
  intro body
  exact onRequestReplyReceived_failed x m { reply with body := body } h

/-- C14, an instance: a refused connection after an accepted
temporary-credentials request. -/
theorem failed_reply_signals_witness :
    ∃ m', onRequestReplyReceived plainExternals (dispatched temporaryCredentialsRequest)
        connectionRefusedReply = some m'
      ∧ m'.emitted = [Signal.requestReady [], Signal.receivedToken [] []]
      ∧ hasTemporaryToken m' = false := by
  obtain ⟨m', h1, h2, _, _, h5, _⟩ :=
    failed_reply_signals plainExternals (dispatched temporaryCredentialsRequest)
      connectionRefusedReply (by decide)
  exact ⟨m', h1, h2, h5⟩

/-- C15. For every endpoint, `getUserAuthorization` called while
`hasTemporaryToken()` is false changes nothing but the last error, which becomes
`RequestUnauthorized`: in particular no URL is opened, and the tokens, the
flags and the request kind are unchanged. -/
theorem getUserAuthorization_without_token (m : Manager Req) (authorizationEndpoint : QUrl)
    (h : hasTemporaryToken m = false) :
    getUserAuthorization m authorizationEndpoint
        = { m with error := KQOAuthError.RequestUnauthorized }
      ∧ lastError (getUserAuthorization m authorizationEndpoint)
        = KQOAuthError.RequestUnauthorized
      ∧ (getUserAuthorization m authorizationEndpoint).opened = m.opened := by
  simp only [hasTemporaryToken] at h
  simp [getUserAuthorization, h, lastError]

/-- C15, an instance: a fresh manager has no temporary token. -/
theorem getUserAuthorization_without_token_witness :
    hasTemporaryToken freshManager = false
      ∧ getUserAuthorization freshManager (plainUrl "https://example.com/authorize")
        = { freshManager with error := KQOAuthError.RequestUnauthorized } :=
  ⟨rfl, (getUserAuthorization_without_token freshManager
    (plainUrl "https://example.com/authorize") rfl).1⟩

/-- After the first parameter, the loop appends `, ` and the parameter. -/
theorem foldl_authHeaderStep (ps : List QByteArray) :
    ∀ acc : QByteArray,
      ps.foldl authHeaderStep (acc, false)
        = (acc ++ (ps.map (fun p => ", ".toList ++ p)).flatten, false) := by
  induction ps with
  | nil => intro acc; simp
  | cons p rest ih =>
    intro acc
    simp only [List.foldl_cons, List.map_cons, List.flatten_cons]
    have hstep : authHeaderStep (acc, false) p = (acc ++ ", ".toList ++ p, false) := by
      simp [authHeaderStep]
    rw [hstep, ih]
    simp [List.append_assoc]

/-- Joining with a separator puts the separator before every item but the
first. -/
theorem intercalate_cons (sep p : QByteArray) (ps : List QByteArray) :
    List.intercalate sep (p :: ps) = p ++ (ps.map (fun q => sep ++ q)).flatten := by
  induction ps generalizing p with
  | nil => simp [List.intercalate, List.intersperse]
  | cons q rest ih =>
    have h := ih q
    simp only [List.intercalate] at h ⊢
    simp [List.intersperse, h]

/-- The header of a non-empty list of parameters. -/
theorem authHeaderOf_cons (p : QByteArray) (ps : List QByteArray) :
    authHeaderOf (p :: ps) = "OAuth ".toList ++ List.intercalate ", ".toList (p :: ps) := by
  have hstep : authHeaderStep ([], true) p = ("OAuth ".toList ++ p, false) := by
    simp [authHeaderStep]
  rw [authHeaderOf, List.foldl_cons, hstep, foldl_authHeaderStep, intercalate_cons]
  simp [List.append_assoc]

/-- For a request that passes the checks of `executeRequest` and whose list of
parameters is non-empty, the post added carries the header `OAuth ` followed by
the parameters in their order joined by `, `, and the content type
`application/x-www-form-urlencoded`. -/
theorem executeChecked_authorization_header (x : Externals Req) (m : Manager Req)
    (request : RequestPtr Req) (req : Req)
    (hu : (x.requestEndpoint req).isValid = true) (hvalid : x.isValid req = true)
    (hne : (x.requestParameters (requestAsSent x m req)).1 ≠ []) :
    ∃ post, (executeChecked x m request req).posted = m.posted ++ [post]
      ∧ post.authorization = "OAuth ".toList
          ++ List.intercalate ", ".toList (x.requestParameters (requestAsSent x m req)).1
      ∧ post.contentType = "application/x-www-form-urlencoded".toList := by
  refine ⟨postOf x m req, (executeChecked_accepted x m request req hu hvalid).1, ?_, rfl⟩
  cases hp : (x.requestParameters (requestAsSent x m req)).1 with
  | nil => exact absurd hp hne
  | cons p ps => simp only [postOf, hp, authHeaderOf_cons]

/-- C19. In every reachable state `isVerified()` is false, the verification slot
changes no field of the state, and the guard `!isAuthorized || !isVerified` of
the reply slot is true. -/
theorem isVerified_never_set (x : Externals Req) (m : Manager Req) (h : Reachable x m) :
    isVerified m = false
      ∧ (∀ response : QMultiMap, onVerificationReceived m response = m)
      ∧ (!m.isAuthorized || !m.isVerified) = true := by
  have hv := reachable_isVerified x m h
  refine ⟨hv, fun _ => rfl, ?_⟩
  simp [hv]

/-- C19, an instance: the state after an accepted temporary-credentials
request, its reply and a verification event. -/
theorem isVerified_never_set_witness :
    ∃ m, run plainExternals freshManager
          [Call.executeRequest (some temporaryCredentialsRequest),
           Call.onRequestReplyReceived tokenReply,
           Call.getUserAuthorization (plainUrl "https://example.com/authorize"),
           Call.onVerificationReceived [("oauth_verifier".toList, "v1".toList)]] = some m
      ∧ isVerified m = false := by
  have hsome : (run plainExternals freshManager
      [Call.executeRequest (some temporaryCredentialsRequest),
       Call.onRequestReplyReceived tokenReply,
       Call.getUserAuthorization (plainUrl "https://example.com/authorize"),
       Call.onVerificationReceived [("oauth_verifier".toList, "v1".toList)]]).isSome
      = true := by decide
  obtain ⟨m, hm⟩ := Option.isSome_iff_exists.mp hsome
  exact ⟨m, hm, (isVerified_never_set plainExternals m ⟨_, _, _, hm⟩).1⟩

/-- C20, at the failing input. After an accepted `executeRequest` of an
access-token request followed by `executeRequest(0)`, the state is reachable,
the reply slot is connected, the request kind is `AccessToken`, and the cached
request `d->r` is null; the reply `oauth_token=abc&oauth_token_secret=xyz` is
error-free with both tokens, and filling the opaque request from `d->r`
fails. -/
theorem cached_request_null_after_null_request :
    Reachable plainExternals (dispatchedThenNull accessTokenRequest)
      ∧ 0 < (dispatchedThenNull accessTokenRequest).finishedConnections
      ∧ (dispatchedThenNull accessTokenRequest).currentRequestType = RequestType.AccessToken
      ∧ (dispatchedThenNull accessTokenRequest).r = RequestPtr.null
      ∧ tokenReply.error = QNetworkError.NoError
      ∧ (createRequestResponse tokenReply.body).value oauthTokenKey ≠ []
      ∧ (createRequestResponse tokenReply.body).value oauthTokenSecretKey ≠ []
      ∧ fillOpaqueRequestForAccess plainExternals (dispatchedThenNull accessTokenRequest) = none
      ∧ (dispatchedThenNull temporaryCredentialsRequest).r = RequestPtr.null
      ∧ fillOpaqueRequestForToken plainExternals
          (dispatchedThenNull temporaryCredentialsRequest) = none := by
  refine ⟨⟨RequestType.AuthorizedRequest, false,
    [Call.executeRequest (some accessTokenRequest), Call.executeRequest none], by decide⟩,
    ?_, ?_, ?_, ?_, ?_, ?_, ?_, ?_, ?_⟩ <;> decide

end KQOAuth
